import Mathlib

/-!
Verification of the Twilio-SMS-with-Google-Sheets automation.

The repository is Google Apps Script (JavaScript).  This file gives a shallow
embedding of the pure computational core of each script into Lean:

* `sms.js`              — phone normalization (`toE164_`), `sendSms_` with its log.
* `smsInbound.js`       — the webhook STOP/START handler and `updateOptInByPhone_`.
* the student-sync script — `normalizeFieldValue_`, `mergeRecords_`, `buildIndex_`,
  `hasAttendance_`, and the row loop of `syncStudentDatabase`.
* `smsBulkSend.js`      — `processBatch`, `sendTwilioSMS`, cursor management.
* `smsSend.js`          — the template renderer `uiRenderPreview`.

JavaScript strings are modelled by Lean `String` (lists of characters); the
JavaScript string methods used by the code (`trim`, `toLowerCase`,
`toUpperCase`, `replace`, `split`, `startsWith`) are modelled by explicit
character-list functions below, restricted to the ASCII behaviour the data in
this system exercises.  Spreadsheet and HTTP side effects are modelled by
explicit state passing: sheets are lists of rows, the HTTP roundtrip is an
oracle argument, and every sheet append performed by the code becomes a list
append in the model.
-/

namespace TwilioSheets

/-! ### Character and string primitives (ASCII model of the JS methods) -/

/-- Whitespace recognised by the model of JS `trim` / `\s` (ASCII subset). -/
def isSpaceChar (c : Char) : Bool :=
  c = ' ' ∨ c = '\t' ∨ c = '\n' ∨ c = '\r'

/-- Model of JS `toLowerCase` (per character: the core ASCII `Char.toLower`). -/
def lowerStr (s : String) : String := ⟨s.data.map Char.toLower⟩

/-- Model of JS `toUpperCase` (per character: the core ASCII `Char.toUpper`). -/
def upperStr (s : String) : String := ⟨s.data.map Char.toUpper⟩

/-- Drop leading whitespace (model of JS `trimStart`). -/
def trimLeftL (l : List Char) : List Char := l.dropWhile isSpaceChar

/-- Drop trailing whitespace (model of JS `trimEnd`). -/
def trimRightL (l : List Char) : List Char :=
  ((l.reverse).dropWhile isSpaceChar).reverse

/-- Model of JS `String.prototype.trim`. -/
def trimStr (s : String) : String := ⟨trimRightL (trimLeftL s.data)⟩

/-- Model of JS `replace(/[^\d]/g, '')`: keep only decimal digits. -/
def digitsOnly (s : String) : String := ⟨s.data.filter Char.isDigit⟩

/-- Model of JS `String.prototype.startsWith`. -/
def jsStartsWith (s pre : String) : Bool := pre.data.isPrefixOf s.data

/-- Number of newline characters in a string. -/
def nlCount (s : String) : Nat := s.data.count '\n'

/-! #### Basic lemmas about the string primitives -/

lemma toNat_ofNat_valid {n : Nat} (h : n.isValidChar) : (Char.ofNat n).toNat = n := by
  rw [Char.ofNat, dif_pos h]
  rfl

lemma toLower_eq (c : Char) :
    Char.toLower c = if 65 ≤ c.toNat ∧ c.toNat ≤ 90 then Char.ofNat (c.toNat + 32) else c := rfl

lemma toLower_toLower (c : Char) : Char.toLower (Char.toLower c) = Char.toLower c := by
  by_cases h : 65 ≤ c.toNat ∧ c.toNat ≤ 90
  · have ht := toNat_ofNat_valid (n := c.toNat + 32) (Or.inl (by omega))
    have h1 : Char.toLower c = Char.ofNat (c.toNat + 32) := by rw [toLower_eq, if_pos h]
    rw [h1, toLower_eq, if_neg (by rw [ht]; omega)]
  · have h1 : Char.toLower c = c := by rw [toLower_eq, if_neg h]
    rw [h1, h1]

lemma ne_of_toNat_ne {c d : Char} (h : c.toNat ≠ d.toNat) : c ≠ d :=
  fun he => h (he ▸ rfl)

lemma isSpaceChar_of_ge_65 {c : Char} (h : 65 ≤ c.toNat) : isSpaceChar c = false := by
  unfold isSpaceChar
  have h1 : c ≠ ' ' := ne_of_toNat_ne (by intro he; rw [he] at h; simp at h)
  have h2 : c ≠ '\t' := ne_of_toNat_ne (by intro he; rw [he] at h; simp at h)
  have h3 : c ≠ '\n' := ne_of_toNat_ne (by intro he; rw [he] at h; simp at h)
  have h4 : c ≠ '\r' := ne_of_toNat_ne (by intro he; rw [he] at h; simp at h)
  simp [h1, h2, h3, h4]

lemma isSpaceChar_toLower (c : Char) : isSpaceChar (Char.toLower c) = isSpaceChar c := by
  by_cases h : 65 ≤ c.toNat ∧ c.toNat ≤ 90
  · have ht := toNat_ofNat_valid (n := c.toNat + 32) (Or.inl (by omega))
    have h1 : Char.toLower c = Char.ofNat (c.toNat + 32) := by rw [toLower_eq, if_pos h]
    rw [h1, isSpaceChar_of_ge_65 (by omega), isSpaceChar_of_ge_65 (by omega)]
  · have h1 : Char.toLower c = c := by rw [toLower_eq, if_neg h]
    rw [h1]

lemma dropWhile_idem (p : α → Bool) (l : List α) :
    (l.dropWhile p).dropWhile p = l.dropWhile p := by
  cases h : l.dropWhile p with
  | nil => simp
  | cons a as =>
    have h2 := List.head?_dropWhile_not p l
    rw [h] at h2
    simp only [List.head?_cons] at h2
    rw [List.dropWhile_cons_of_neg (by simp [h2])]

lemma dropWhile_congr' {p q : α → Bool} {l : List α} (h : ∀ a ∈ l, p a = q a) :
    l.dropWhile p = l.dropWhile q := by
  induction l with
  | nil => rfl
  | cons a as ih =>
    by_cases hq : q a = true
    · rw [List.dropWhile_cons_of_pos (by rw [h a (List.mem_cons_self a as)]; exact hq),
          List.dropWhile_cons_of_pos hq]
      exact ih fun b hb => h b (List.mem_cons_of_mem _ hb)
    · rw [List.dropWhile_cons_of_neg (by rw [h a (List.mem_cons_self a as)]; exact hq),
          List.dropWhile_cons_of_neg hq]

lemma dropWhile_prefix_self (p : α → Bool) {l m : List α}
    (hl : l.dropWhile p = l) (hm : m <+: l) : m.dropWhile p = m := by
  cases m with
  | nil => simp
  | cons a as =>
    obtain ⟨t, ht⟩ := hm
    have hpa : p a = false := by
      by_contra hp
      simp only [Bool.not_eq_false] at hp
      rw [← ht, List.cons_append, List.dropWhile_cons_of_pos hp] at hl
      have h1 : (List.dropWhile p (as ++ t)).length ≤ (as ++ t).length :=
        (List.dropWhile_suffix p).length_le
      rw [hl] at h1
      simp at h1
    rw [List.dropWhile_cons_of_neg (by simp [hpa])]

lemma trimLeftL_idem (l : List Char) : trimLeftL (trimLeftL l) = trimLeftL l :=
  dropWhile_idem _ _

lemma trimRightL_idem (l : List Char) : trimRightL (trimRightL l) = trimRightL l := by
  unfold trimRightL
  rw [List.reverse_reverse, dropWhile_idem]

lemma trimRightL_pref (l : List Char) : trimRightL l <+: l := by
  unfold trimRightL
  rw [← List.reverse_reverse l]
  rw [List.reverse_prefix]
  simp only [List.reverse_reverse]
  exact List.dropWhile_suffix _

lemma trimLeftL_trimRightL_of_left_trimmed {l : List Char} (h : trimLeftL l = l) :
    trimLeftL (trimRightL l) = trimRightL l :=
  dropWhile_prefix_self _ h (trimRightL_pref l)

lemma trimStr_data (s : String) : (trimStr s).data = trimRightL (trimLeftL s.data) := rfl

lemma trimStr_idem (s : String) : trimStr (trimStr s) = trimStr s := by
  apply String.ext
  show trimRightL (trimLeftL (trimRightL (trimLeftL s.data))) = trimRightL (trimLeftL s.data)
  rw [trimLeftL_trimRightL_of_left_trimmed (trimLeftL_idem s.data), trimRightL_idem]

lemma lowerStr_data (s : String) : (lowerStr s).data = s.data.map Char.toLower := rfl

lemma lowerStr_lowerStr (s : String) : lowerStr (lowerStr s) = lowerStr s := by
  apply String.ext
  simp only [lowerStr_data, List.map_map]
  exact List.map_congr_left fun c _ => toLower_toLower c

lemma trimLeftL_map_toLower (l : List Char) :
    trimLeftL (l.map Char.toLower) = (trimLeftL l).map Char.toLower := by
  unfold trimLeftL
  rw [List.dropWhile_map]
  congr 1
  exact dropWhile_congr' fun c _ => by
    simp only [Function.comp_apply]
    exact isSpaceChar_toLower c

lemma trimRightL_map_toLower (l : List Char) :
    trimRightL (l.map Char.toLower) = (trimRightL l).map Char.toLower := by
  unfold trimRightL
  rw [← List.map_reverse, List.dropWhile_map, ← List.map_reverse]
  congr 2
  exact dropWhile_congr' fun c _ => by
    simp only [Function.comp_apply]
    exact isSpaceChar_toLower c

/-- JS `x.trim().toLowerCase()` and `x.toLowerCase().trim()` agree. -/
lemma trimStr_lowerStr_comm (s : String) : trimStr (lowerStr s) = lowerStr (trimStr s) := by
  apply String.ext
  rw [trimStr_data, lowerStr_data, lowerStr_data, trimStr_data]
  rw [trimLeftL_map_toLower, trimRightL_map_toLower]

/-! ### `sms.js`: `toE164_` -/

/-- `toE164_(digits)` from `sms.js`: strip non-digits, add the US country code
if the result is 10 digits, force a leading `1`, and prefix `+`. -/
def toE164 (digits : String) : String :=
  let d := digitsOnly digits
  let d := if d.length = 10 then "1" ++ d else d
  let d := if ¬ jsStartsWith d "1" then "1" ++ d else d
  "+" ++ d

/-! #### Lemmas for `toE164` -/

lemma digitsOnly_data (s : String) : (digitsOnly s).data = s.data.filter Char.isDigit := rfl

lemma string_append_data (s t : String) : (s ++ t).data = s.data ++ t.data :=
  String.data_append s t

lemma force1_data (d : String) :
    ∃ t : List Char,
      ((if ¬ jsStartsWith d "1" then "1" ++ d else d) : String).data = '1' :: t := by
  by_cases h : jsStartsWith d "1"
  · obtain ⟨t, ht⟩ := List.isPrefixOf_iff_prefix.mp h
    exact ⟨t, by simp only [h, not_true, if_neg, not_false_eq_true]; exact ht.symm⟩
  · exact ⟨d.data, by simp only [h, not_false_eq_true, if_pos, string_append_data]; rfl⟩

lemma toE164_data (s : String) :
    ∃ t : List Char, (toE164 s).data = '+' :: '1' :: t := by
  unfold toE164
  set d := if (digitsOnly s).length = 10 then "1" ++ digitsOnly s else digitsOnly s
  obtain ⟨t, ht⟩ := force1_data d
  exact ⟨t, by rw [string_append_data, ht]; rfl⟩

/-- C10: every output of the dialing-form normalizer `toE164_` begins with
`"+1"`; an input with no digits yields exactly `"+1"`; and a digit string whose
length is not 10 and that does not begin with `1` gets a leading `1` prepended
(output `"+1"` followed by the digit string) rather than being passed through
unchanged. -/
theorem C10_toE164_dialing_form (s : String) :
    jsStartsWith (toE164 s) "+1"
    ∧ (digitsOnly s = "" → toE164 s = "+1")
    ∧ ((digitsOnly s).length ≠ 10 → ¬ jsStartsWith (digitsOnly s) "1" →
        toE164 s = "+1" ++ digitsOnly s) := by
  refine ⟨?_, ?_, ?_⟩
  · obtain ⟨t, ht⟩ := toE164_data s
    unfold jsStartsWith
    rw [ht]
    show List.isPrefixOf ['+', '1'] ('+' :: '1' :: t)
    simp [List.isPrefixOf]
  · intro h
    unfold toE164
    rw [h]
    decide
  · intro h10 h1
    simp only [toE164, if_neg h10, if_pos h1]
    apply String.ext
    simp [string_append_data]

/-- Witness for C10 at concrete inputs: an input with no digits at all maps to
exactly `"+1"`, and a 3-digit input not starting with `1` gets `1` prepended. -/
theorem C10_toE164_dialing_form_witness :
    toE164 "abc" = "+1" ∧ toE164 "(223)" = "+1223" := by
  constructor
  · exact (C10_toE164_dialing_form "abc").2.1 (by decide)
  · have h := (C10_toE164_dialing_form "(223)").2.2 (by decide) (by decide)
    rw [h]; decide

/-! ### Student sync script: data model

The sync script (`syncStudentDatabase` and its helpers) reads rows of the
Student Database sheet as objects keyed by the `CONFIG.fieldAliases` column
names.  We model such an object as a structure with one `String` field per
database column.  (Columns of the sheet outside `fieldAliases` are initialised
blank on insert and never touched by the script, so they are not modelled.) -/

inductive FieldKey
  | joinDate | studentName | role | pantherId | discord | email | campusEmail | phone | smsOptIn
deriving DecidableEq, Repr

/-- One Student Database row, restricted to the `CONFIG.fieldAliases` columns. -/
structure Record where
  joinDate : String
  studentName : String
  role : String
  pantherId : String
  discord : String
  email : String
  campusEmail : String
  phone : String
  smsOptIn : String
deriving DecidableEq, Repr

def Record.get (r : Record) : FieldKey → String
  | .joinDate => r.joinDate
  | .studentName => r.studentName
  | .role => r.role
  | .pantherId => r.pantherId
  | .discord => r.discord
  | .email => r.email
  | .campusEmail => r.campusEmail
  | .phone => r.phone
  | .smsOptIn => r.smsOptIn

/-- The sheet column name of each field (used by `makeIndexKey_`). -/
def fieldName : FieldKey → String
  | .joinDate => "Join Date"
  | .studentName => "Student Name"
  | .role => "Role"
  | .pantherId => "Panther ID"
  | .discord => "Discord"
  | .email => "Email"
  | .campusEmail => "Campus Email"
  | .phone => "Phone #"
  | .smsOptIn => "SMS Opt-In"

/-- `normalizeFieldValue_(dbKey, value)`: emails are trimmed and lowercased,
phones are reduced to bare digits with a leading US `1` stripped from 11-digit
numbers, and any non-empty opt-in checkbox value becomes `"Yes"`. -/
def normalizeFieldValue (dbKey : FieldKey) (value : String) : String :=
  if value = "" then ""
  else if dbKey = .email ∨ dbKey = .campusEmail then lowerStr (trimStr value)
  else if dbKey = .phone then
    let v := digitsOnly value
    if v.length = 11 ∧ jsStartsWith v "1" then ⟨v.data.drop 1⟩ else v
  else if dbKey = .smsOptIn then "Yes"
  else value

/-- `firstNonEmpty_(arr)`: first entry that is non-empty after trimming. -/
def firstNonEmpty : List String → String
  | [] => ""
  | v :: rest => if v ≠ "" ∧ trimStr v ≠ "" then v else firstNonEmpty rest

/-- `inferMatchKey_(obj)` over `CONFIG.matchKeys = [Campus Email, Email, Phone #]`. -/
def inferMatchKey (r : Record) : Option FieldKey :=
  if r.campusEmail ≠ "" ∧ trimStr r.campusEmail ≠ "" then some .campusEmail
  else if r.email ≠ "" ∧ trimStr r.email ≠ "" then some .email
  else if r.phone ≠ "" ∧ trimStr r.phone ≠ "" then some .phone
  else none

/-- `makeIndexKey_(keyName, keyVal)`. -/
def makeIndexKey (keyName : FieldKey) (keyVal : String) : String :=
  fieldName keyName ++ "::" ++ lowerStr keyVal

/-- A JS `Map` of index entries: association list where `set` overwrites. -/
def mapSet (m : List (String × Nat × Record)) (k : String) (v : Nat × Record) :
    List (String × Nat × Record) :=
  match m with
  | [] => [(k, v)]
  | (k', v') :: rest => if k' = k then (k, v) :: rest else (k', v') :: mapSet rest k v

def mapGet (m : List (String × Nat × Record)) (k : String) : Option (Nat × Record) :=
  match m with
  | [] => none
  | (k', v') :: rest => if k' = k then some v' else mapGet rest k

/-- The index key a Student Database row contributes in `buildIndex_`
(`keyName` from `inferMatchKey_`, `keyVal` from `firstNonEmpty_` over campus
email, email, and normalized phone), or `none` if the row is unkeyed. -/
def rowKey (obj : Record) : Option String :=
  match inferMatchKey obj with
  | none => none
  | some keyName =>
    let keyVal := firstNonEmpty [obj.campusEmail, obj.email,
                                 normalizeFieldValue .phone obj.phone]
    if keyVal = "" then none else some (makeIndexKey keyName keyVal)

def addRow (idx : List (String × Nat × Record)) (i : Nat) (obj : Record) :
    List (String × Nat × Record) :=
  match rowKey obj with
  | none => idx
  | some k => mapSet idx k (i + 2, obj)

def buildIndexAux : List Record → Nat → List (String × Nat × Record) →
    List (String × Nat × Record)
  | [], _, idx => idx
  | obj :: rest, i, idx => buildIndexAux rest (i + 1) (addRow idx i obj)

/-- `buildIndex_(rows, matchKeys)`: row `i` of the data (sheet row `i + 2`). -/
def buildIndex (rows : List Record) : List (String × Nat × Record) :=
  buildIndexAux rows 0 []

/-- `mergeRecords_(existing, incoming)`: every non-empty incoming field
overwrites; `Join Date` is never overwritten. -/
def mergeRecords (existing incoming : Record) : Record where
  joinDate := existing.joinDate
  studentName := if incoming.studentName ≠ "" then incoming.studentName else existing.studentName
  role := if incoming.role ≠ "" then incoming.role else existing.role
  pantherId := if incoming.pantherId ≠ "" then incoming.pantherId else existing.pantherId
  discord := if incoming.discord ≠ "" then incoming.discord else existing.discord
  email := if incoming.email ≠ "" then incoming.email else existing.email
  campusEmail := if incoming.campusEmail ≠ "" then incoming.campusEmail else existing.campusEmail
  phone := if incoming.phone ≠ "" then incoming.phone else existing.phone
  smsOptIn := if incoming.smsOptIn ≠ "" then incoming.smsOptIn else existing.smsOptIn

/-- `writeBackRow_`: overwrite sheet row `rowNumber` (data row `rowNumber - 2`). -/
def writeBackRow (db : List Record) (rowNumber : Nat) (obj : Record) : List Record :=
  db.set (rowNumber - 2) obj

/-! ### Attendance sheet -/

/-- One Attendance row; only the Event ID and Campus Email cells are ever
written or read by the script. -/
structure AttRow where
  eventId : String
  campusEmail : String
deriving DecidableEq, Repr

/-- `hasAttendance_(sheet, eventId, campusEmailLower)`: linear scan comparing
the trimmed stored event id (case-sensitive) and the trimmed lowercased stored
campus email. -/
def hasAttendance (att : List AttRow) (eventId campusEmailLower : String) : Bool :=
  if eventId = "" ∨ campusEmailLower = "" then false
  else att.any fun row =>
    trimStr row.eventId = eventId ∧ lowerStr (trimStr row.campusEmail) = campusEmailLower

/-- `appendAttendanceRow_(sheet, eventId, student)`: append a row carrying the
event id and the lowercased trimmed campus email. -/
def appendAttendanceRow (att : List AttRow) (eventId : String) (student : Record) :
    List AttRow :=
  let campusEmailVal := trimStr (lowerStr student.campusEmail)
  att ++ [⟨eventId, campusEmailVal⟩]

/-! ### The sync pass -/

/-- One form-response row.  `raw` holds the response values under the resolved
header aliases (one per database column), `rawEventId` the value under the
event-id header, `processed` the value of the Processed flag column. -/
structure Submission where
  raw : Record
  rawEventId : String
  processed : String
deriving DecidableEq, Repr

/-- The normalized `incoming` record built for a submission.  Header-alias
resolution (`getValueByHeader_`) returns the trimmed cell value, which is then
passed through `normalizeFieldValue_`. -/
def incomingOf (s : Submission) : Record where
  joinDate := normalizeFieldValue .joinDate (trimStr s.raw.joinDate)
  studentName := normalizeFieldValue .studentName (trimStr s.raw.studentName)
  role := normalizeFieldValue .role (trimStr s.raw.role)
  pantherId := normalizeFieldValue .pantherId (trimStr s.raw.pantherId)
  discord := normalizeFieldValue .discord (trimStr s.raw.discord)
  email := normalizeFieldValue .email (trimStr s.raw.email)
  campusEmail := normalizeFieldValue .campusEmail (trimStr s.raw.campusEmail)
  phone := normalizeFieldValue .phone (trimStr s.raw.phone)
  smsOptIn := normalizeFieldValue .smsOptIn (trimStr s.raw.smsOptIn)

/-- The mutable state a sync pass acts on: database rows, attendance rows, and
the phones sent the one-time welcome SMS (in send order). -/
structure PassState where
  db : List Record
  att : List AttRow
  welcomes : List String
deriving DecidableEq, Repr

/-- The ATTENDANCE APPEND block of `syncStudentDatabase`. -/
def attendanceStep (st : PassState) (sub : Submission) (studentSaved : Record) :
    PassState :=
  let eventId := trimStr sub.rawEventId
  let campusEmailKey := trimStr (lowerStr studentSaved.campusEmail)
  if eventId ≠ "" ∧ campusEmailKey ≠ "" ∧ ¬ hasAttendance st.att eventId campusEmailKey then
    { st with att := appendAttendanceRow st.att eventId studentSaved }
  else st

/-- Update branch of `syncStudentDatabase` for a matched submission.  The
welcome SMS fires when the submission opts in, the indexed (pass-start) copy of
the row was not already `yes`, and the updated row has a phone. -/
def updateExisting (st : PassState) (incoming : Record) (rowNumber : Nat) (obj : Record) :
    PassState × Record :=
  let prevOpt := lowerStr obj.smsOptIn
  let incomingOptYes := incoming.smsOptIn = "Yes"
  let updated := mergeRecords obj incoming
  let updated := if incomingOptYes then { updated with smsOptIn := "Yes" } else updated
  let db' := writeBackRow st.db rowNumber updated
  let welcomes' :=
    if incomingOptYes ∧ prevOpt ≠ "yes" ∧ updated.phone ≠ "" then
      st.welcomes ++ [toE164 updated.phone]
    else st.welcomes
  ({ st with db := db', welcomes := welcomes' }, updated)

/-- Insert branch of `syncStudentDatabase` for an unmatched submission.  The
new row starts blank, is overlaid with the incoming values, gets a default join
date, and its opt-in defaults to the `"?"` sentinel. -/
def insertNew (today : String) (st : PassState) (incoming : Record) : PassState × Record :=
  let newObj := incoming
  let newObj := if newObj.joinDate = "" then { newObj with joinDate := today } else newObj
  let incomingOptYes := incoming.smsOptIn = "Yes"
  let newObj :=
    if incomingOptYes then { newObj with smsOptIn := "Yes" }
    else if newObj.smsOptIn = "" then { newObj with smsOptIn := "?" } else newObj
  let welcomes' :=
    if incomingOptYes ∧ newObj.phone ≠ "" then st.welcomes ++ [toE164 newObj.phone]
    else st.welcomes
  ({ st with db := st.db ++ [newObj], welcomes := welcomes' }, newObj)

/-- The body of the response-row loop of `syncStudentDatabase` for one row.
`dbIndex` is the index built once at pass start; it is not refreshed.  Every
non-skipped row ends marked `"YES"` in the Processed column. -/
def syncStep (today : String) (dbIndex : List (String × Nat × Record))
    (st : PassState) (sub : Submission) : PassState × Submission :=
  if lowerStr sub.processed = "yes" then (st, sub)
  else
    let incoming := incomingOf sub
    let keyValue := firstNonEmpty [incoming.campusEmail, incoming.email, incoming.phone]
    if keyValue = "" then (st, { sub with processed := "YES" })
    else
      match inferMatchKey incoming with
      | none => (st, { sub with processed := "YES" })
      | some matchKey =>
        let idxKey := makeIndexKey matchKey keyValue
        let saved :=
          match mapGet dbIndex idxKey with
          | some (rowNumber, obj) => updateExisting st incoming rowNumber obj
          | none => insertNew today st incoming
        (attendanceStep saved.1 sub saved.2, { sub with processed := "YES" })

def syncPassAux (today : String) (dbIndex : List (String × Nat × Record)) :
    PassState → List Submission → PassState × List Submission
  | st, [] => (st, [])
  | st, sub :: rest =>
    let step := syncStep today dbIndex st sub
    let restResult := syncPassAux today dbIndex step.1 rest
    (restResult.1, step.2 :: restResult.2)

/-- One run of `syncStudentDatabase` over one response sheet: the index is
built from the database once, then every response row is processed in order.
Returns the final state and the response rows with their Processed flags. -/
def syncPass (today : String) (st : PassState) (subs : List Submission) :
    PassState × List Submission :=
  syncPassAux today (buildIndex st.db) st subs

/-! ### C4: the merge law -/

/-- C4: `mergeRecords_` returns a record in which every field other than the
join-date field equals the incoming value when that incoming value is
non-empty and the existing value otherwise; the join-date field always keeps
the existing value; and merging an all-empty incoming record returns the
existing record unchanged. -/
theorem C4_mergeRecords_no_clobber (existing incoming : Record) :
    (∀ k : FieldKey, k ≠ .joinDate →
        (mergeRecords existing incoming).get k =
          if incoming.get k ≠ "" then incoming.get k else existing.get k)
    ∧ (mergeRecords existing incoming).joinDate = existing.joinDate
    ∧ ((∀ k : FieldKey, incoming.get k = "") → mergeRecords existing incoming = existing) := by
  refine ⟨?_, rfl, ?_⟩
  · intro k hk
    cases k <;> simp [mergeRecords, Record.get] at hk ⊢
  · intro h
    have h1 := h .studentName
    have h2 := h .role
    have h3 := h .pantherId
    have h4 := h .discord
    have h5 := h .email
    have h6 := h .campusEmail
    have h7 := h .phone
    have h8 := h .smsOptIn
    simp only [Record.get] at h1 h2 h3 h4 h5 h6 h7 h8
    simp [mergeRecords, h1, h2, h3, h4, h5, h6, h7, h8]

/-- Witness for C4: merging an all-empty incoming record into a concrete
record returns it unchanged. -/
theorem C4_mergeRecords_no_clobber_witness :
    mergeRecords
        ⟨"1/1/2024", "Alice Ant", "Member", "123456", "alice", "a@personal.com",
          "a@campus.edu", "5551234567", "Yes"⟩
        ⟨"", "", "", "", "", "", "", "", ""⟩
      = ⟨"1/1/2024", "Alice Ant", "Member", "123456", "alice", "a@personal.com",
          "a@campus.edu", "5551234567", "Yes"⟩ :=
  (C4_mergeRecords_no_clobber _ _).2.2 (fun k => by cases k <;> rfl)

/-! ### C5: at most one attendance fact per (event, identity) pair -/

/-- No two attendance rows agree on (trimmed event id, trimmed lowercased
campus email) — the comparison `hasAttendance_` performs. -/
def attOK (att : List AttRow) : Prop :=
  att.Pairwise fun a b =>
    ¬ (trimStr a.eventId = trimStr b.eventId ∧
       lowerStr (trimStr a.campusEmail) = lowerStr (trimStr b.campusEmail))

lemma attOK_attendanceStep {st : PassState} {sub : Submission} {studentSaved : Record}
    (h : attOK st.att) : attOK (attendanceStep st sub studentSaved).att := by
  unfold attendanceStep
  simp only []
  split
  case isFalse => exact h
  case isTrue hg =>
    obtain ⟨he, hc, hna⟩ := hg
    show attOK (appendAttendanceRow st.att (trimStr sub.rawEventId) studentSaved)
    unfold appendAttendanceRow
    set eid := trimStr sub.rawEventId with heid
    set ce := trimStr (lowerStr studentSaved.campusEmail) with hce
    have htrim_eid : trimStr eid = eid := by rw [heid, trimStr_idem]
    have htrim_ce : trimStr ce = ce := by rw [hce, trimStr_idem]
    have hlower_ce : lowerStr ce = ce := by
      rw [hce, trimStr_lowerStr_comm, lowerStr_lowerStr, ← trimStr_lowerStr_comm]
    rw [attOK, List.pairwise_append]
    refine ⟨h, List.pairwise_singleton _ _, ?_⟩
    intro a ha b hb
    simp only [List.mem_singleton] at hb
    subst hb
    rw [hasAttendance, if_neg (by simp [he, hc])] at hna
    simp only [Bool.not_eq_true, List.any_eq_false] at hna
    have := hna a ha
    simp only [decide_eq_false_iff_not] at this
    simpa [htrim_eid, htrim_ce, hlower_ce] using this

lemma updateExisting_att (st : PassState) (incoming : Record) (rowNumber : Nat)
    (obj : Record) : (updateExisting st incoming rowNumber obj).1.att = st.att := rfl

lemma insertNew_att (today : String) (st : PassState) (incoming : Record) :
    (insertNew today st incoming).1.att = st.att := rfl

lemma attOK_syncStep {today : String} {idx : List (String × Nat × Record)}
    {st : PassState} {sub : Submission} (h : attOK st.att) :
    attOK (syncStep today idx st sub).1.att := by
  unfold syncStep
  split
  · exact h
  · simp only []
    split
    · exact h
    · split
      · exact h
      · apply attOK_attendanceStep
        split
        · rw [updateExisting_att]; exact h
        · rw [insertNew_att]; exact h

lemma attOK_syncPassAux (today : String) (idx : List (String × Nat × Record)) :
    ∀ (subs : List Submission) (st : PassState), attOK st.att →
      attOK (syncPassAux today idx st subs).1.att
  | [], _, h => h
  | _ :: rest, _, h =>
    attOK_syncPassAux today idx rest _ (attOK_syncStep h)

/-- C5: for every (event id, identity) pair at most one attendance fact exists
after any sync pass: if no two attendance rows agree on the (case-sensitive
trimmed event id, case-insensitive campus email) pair before the pass, the
same holds afterwards — `hasAttendance_` scans before every append. -/
theorem C5_attendance_at_most_one (today : String) (st : PassState)
    (subs : List Submission) (h : attOK st.att) :
    attOK (syncPass today st subs).1.att :=
  attOK_syncPassAux today (buildIndex st.db) subs st h

/-- Witness for C5: two attendance submissions for the same (event, identity)
pair, processed in one pass starting from empty sheets, leave the attendance
invariant intact — and exactly one attendance fact exists. -/
theorem C5_attendance_at_most_one_witness :
    attOK ((syncPass "9/1/2025" ⟨[], [], []⟩
        [⟨⟨"", "Alice Ant", "", "", "", "", "A@Campus.edu", "", ""⟩, "EV-1", ""⟩,
         ⟨⟨"", "Alice Ant", "", "", "", "", "a@campus.edu", "", ""⟩, "EV-1", ""⟩]).1.att)
    ∧ ((syncPass "9/1/2025" ⟨[], [], []⟩
        [⟨⟨"", "Alice Ant", "", "", "", "", "A@Campus.edu", "", ""⟩, "EV-1", ""⟩,
         ⟨⟨"", "Alice Ant", "", "", "", "", "a@campus.edu", "", ""⟩, "EV-1", ""⟩]).1.att).length
      = 1 :=
  ⟨C5_attendance_at_most_one _ _ _ (by simp [attOK]), by decide⟩

/-! ### Index-lookup lemmas for the sync pass -/

lemma mapGet_mapSet_self (m : List (String × Nat × Record)) (k : String) (v : Nat × Record) :
    mapGet (mapSet m k v) k = some v := by
  induction m with
  | nil => simp [mapSet, mapGet]
  | cons p rest ih =>
    obtain ⟨k', v'⟩ := p
    by_cases h : k' = k
    · simp [mapSet, mapGet, h]
    · simp [mapSet, mapGet, h, ih]

lemma mapGet_mapSet_ne (m : List (String × Nat × Record)) {k k' : String} (v : Nat × Record)
    (h : k' ≠ k) : mapGet (mapSet m k' v) k = mapGet m k := by
  induction m with
  | nil => simp [mapSet, mapGet, h]
  | cons p rest ih =>
    obtain ⟨k'', v''⟩ := p
    by_cases h2 : k'' = k'
    · simp [mapSet, mapGet, h2, h]
    · simp only [mapSet, if_neg h2, mapGet]
      split
      · rfl
      · exact ih

lemma addRow_get_of_ne {idx : List (String × Nat × Record)} {i : Nat} {obj : Record}
    {K : String} (h : rowKey obj ≠ some K) :
    mapGet (addRow idx i obj) K = mapGet idx K := by
  unfold addRow
  cases hr : rowKey obj with
  | none => rfl
  | some k =>
    have hk : k ≠ K := fun he => h (by rw [hr, he])
    exact mapGet_mapSet_ne idx _ hk

lemma addRow_get_of_eq {idx : List (String × Nat × Record)} {i : Nat} {obj : Record}
    {K : String} (h : rowKey obj = some K) :
    mapGet (addRow idx i obj) K = some (i + 2, obj) := by
  unfold addRow
  rw [h]
  exact mapGet_mapSet_self idx K _

lemma buildIndexAux_append (xs ys : List Record) (i : Nat)
    (acc : List (String × Nat × Record)) :
    buildIndexAux (xs ++ ys) i acc = buildIndexAux ys (i + xs.length) (buildIndexAux xs i acc) := by
  induction xs generalizing i acc with
  | nil => simp [buildIndexAux]
  | cons x xs ih =>
    have h1 : buildIndexAux ((x :: xs) ++ ys) i acc
        = buildIndexAux (xs ++ ys) (i + 1) (addRow acc i x) := rfl
    have h2 : buildIndexAux (x :: xs) i acc = buildIndexAux xs (i + 1) (addRow acc i x) := rfl
    rw [h1, ih, h2, List.length_cons]
    have harith : i + 1 + xs.length = i + (xs.length + 1) := by omega
    rw [harith]

lemma buildIndexAux_get_of_none {rows : List Record} {K : String}
    (h : ∀ r ∈ rows, rowKey r ≠ some K) (i : Nat) (acc : List (String × Nat × Record)) :
    mapGet (buildIndexAux rows i acc) K = mapGet acc K := by
  induction rows generalizing i acc with
  | nil => rfl
  | cons r rows ih =>
    rw [buildIndexAux, ih fun r' hr' => h r' (List.mem_cons_of_mem _ hr'),
        addRow_get_of_ne (h r (List.mem_cons_self r rows))]

/-- If the row `P` (at data position `pre.length`) carries index key `K` and
no later row does, the pass-start index resolves `K` to `P` at sheet row
`pre.length + 2` (`Map.set` lets the last writer win). -/
lemma mapGet_buildIndex_at (pre post : List Record) (P : Record) (K : String)
    (hP : rowKey P = some K)
    (hpost : ∀ r ∈ post, rowKey r ≠ some K) :
    mapGet (buildIndex (pre ++ P :: post)) K = some (pre.length + 2, P) := by
  unfold buildIndex
  rw [buildIndexAux_append, buildIndexAux, buildIndexAux_get_of_none hpost,
      addRow_get_of_eq hP]
  norm_num

/-! ### How rows and submissions resolve their identity key -/

/-- Whether a database row carries the campus-email identity `e` under the
normalization `hasAttendance_`-style comparison (trim, then lowercase). -/
def hasIdentityCE (e : String) (r : Record) : Bool :=
  lowerStr (trimStr r.campusEmail) == e

lemma inferMatchKey_cases {r : Record} {k : FieldKey} (h : inferMatchKey r = some k) :
    k = .campusEmail ∨ k = .email ∨ k = .phone := by
  unfold inferMatchKey at h
  split at h
  · exact Or.inl (Option.some_injective _ h).symm
  · split at h
    · exact Or.inr (Or.inl (Option.some_injective _ h).symm)
    · split at h
      · exact Or.inr (Or.inr (Option.some_injective _ h).symm)
      · exact absurd h (by simp)

lemma makeIndexKey_email_ne (v e : String) :
    makeIndexKey .email v ≠ makeIndexKey .campusEmail e := by
  intro h
  have h1 : (makeIndexKey .email v).data.head? = some 'E' := by
    rw [makeIndexKey, string_append_data]
    rfl
  have h2 : (makeIndexKey .campusEmail e).data.head? = some 'C' := by
    rw [makeIndexKey, string_append_data]
    rfl
  rw [h, h2] at h1
  simp at h1

lemma makeIndexKey_phone_ne (v e : String) :
    makeIndexKey .phone v ≠ makeIndexKey .campusEmail e := by
  intro h
  have h1 : (makeIndexKey .phone v).data.head? = some 'P' := by
    rw [makeIndexKey, string_append_data]
    rfl
  have h2 : (makeIndexKey .campusEmail e).data.head? = some 'C' := by
    rw [makeIndexKey, string_append_data]
    rfl
  rw [h, h2] at h1
  simp at h1

lemma makeIndexKey_campus_inj {v e : String}
    (h : makeIndexKey .campusEmail v = makeIndexKey .campusEmail e) :
    lowerStr v = lowerStr e := by
  have hd := congrArg String.data h
  rw [makeIndexKey, makeIndexKey, string_append_data, string_append_data] at hd
  exact String.ext (List.append_cancel_left hd)

/-- A database row whose campus email does not normalize to `e` never
contributes the index key of identity `e`. -/
lemma rowKey_ne_of_no_identity {r : Record} {e : String}
    (het : trimStr e = e) (hel : lowerStr e = e)
    (h : lowerStr (trimStr r.campusEmail) ≠ e) :
    rowKey r ≠ some (makeIndexKey .campusEmail e) := by
  intro hk
  unfold rowKey at hk
  cases hm : inferMatchKey r with
  | none => rw [hm] at hk; exact absurd hk (by simp)
  | some keyName =>
    rw [hm] at hk
    simp only [] at hk
    split at hk
    · exact absurd hk (by simp)
    · have hkey : makeIndexKey keyName _ = makeIndexKey .campusEmail e :=
        Option.some_injective _ hk
      rcases inferMatchKey_cases hm with rfl | rfl | rfl
      · -- keyName = campusEmail: the first firstNonEmpty candidate is the campus email
        have hcond : r.campusEmail ≠ "" ∧ trimStr r.campusEmail ≠ "" := by
          by_contra hc
          unfold inferMatchKey at hm
          rw [if_neg hc] at hm
          split at hm
          · exact absurd (Option.some_injective _ hm) (by simp)
          · split at hm
            · exact absurd (Option.some_injective _ hm) (by simp)
            · exact absurd hm (by simp)
        have hval : firstNonEmpty [r.campusEmail, r.email,
            normalizeFieldValue .phone r.phone] = r.campusEmail := by
          unfold firstNonEmpty
          rw [if_pos hcond]
        rw [hval] at hkey
        have hre : lowerStr r.campusEmail = e := by
          have := makeIndexKey_campus_inj hkey
          rw [hel] at this
          exact this
        apply h
        rw [← trimStr_lowerStr_comm, hre]
        exact het
      · exact makeIndexKey_email_ne _ _ hkey
      · exact makeIndexKey_phone_ne _ _ hkey

/-! ### Evaluating one sync step on a campus-email-keyed submission -/

/-- A non-empty normalized campus email is trimmed and lowercased. -/
lemma normalizeCampus_shape {v e : String}
    (h : normalizeFieldValue .campusEmail v = e) (hne : e ≠ "") :
    trimStr e = e ∧ lowerStr e = e := by
  unfold normalizeFieldValue at h
  by_cases hv : v = ""
  · rw [if_pos hv] at h
    exact absurd h.symm hne
  · rw [if_neg hv, if_pos (Or.inr rfl)] at h
    subst h
    exact ⟨by rw [trimStr_lowerStr_comm, trimStr_idem], lowerStr_lowerStr _⟩

lemma firstNonEmpty_head {e : String} (rest : List String)
    (he : e ≠ "") (het : trimStr e = e) :
    firstNonEmpty (e :: rest) = e := by
  unfold firstNonEmpty
  rw [if_pos ⟨he, by rw [het]; exact he⟩]

lemma inferMatchKey_of_campus {inc : Record} {e : String} (hc : inc.campusEmail = e)
    (he : e ≠ "") (het : trimStr e = e) :
    inferMatchKey inc = some .campusEmail := by
  unfold inferMatchKey
  rw [if_pos ⟨by rw [hc]; exact he, by rw [hc, het]; exact he⟩]

lemma syncStep_matched {today : String} {idx : List (String × Nat × Record)}
    {st : PassState} {S : Submission} {e : String} {rn : Nat} {obj : Record}
    (hpr : lowerStr S.processed ≠ "yes")
    (he : e ≠ "") (het : trimStr e = e)
    (hS : (incomingOf S).campusEmail = e)
    (hidx : mapGet idx (makeIndexKey .campusEmail e) = some (rn, obj)) :
    syncStep today idx st S =
      (attendanceStep (updateExisting st (incomingOf S) rn obj).1 S
          (updateExisting st (incomingOf S) rn obj).2,
       { S with processed := "YES" }) := by
  unfold syncStep
  rw [if_neg hpr]
  simp only [hS, firstNonEmpty_head _ he het, if_neg he,
             inferMatchKey_of_campus hS he het, hidx]

lemma syncStep_unmatched {today : String} {idx : List (String × Nat × Record)}
    {st : PassState} {S : Submission} {e : String}
    (hpr : lowerStr S.processed ≠ "yes")
    (he : e ≠ "") (het : trimStr e = e)
    (hS : (incomingOf S).campusEmail = e)
    (hidx : mapGet idx (makeIndexKey .campusEmail e) = none) :
    syncStep today idx st S =
      (attendanceStep (insertNew today st (incomingOf S)).1 S
          (insertNew today st (incomingOf S)).2,
       { S with processed := "YES" }) := by
  unfold syncStep
  rw [if_neg hpr]
  simp only [hS, firstNonEmpty_head _ he het, if_neg he,
             inferMatchKey_of_campus hS he het, hidx]

/-! #### Components of the update/insert branches -/

lemma attendanceStep_db (st : PassState) (sub : Submission) (r : Record) :
    (attendanceStep st sub r).db = st.db := by
  unfold attendanceStep
  simp only []
  split <;> rfl

lemma attendanceStep_welcomes (st : PassState) (sub : Submission) (r : Record) :
    (attendanceStep st sub r).welcomes = st.welcomes := by
  unfold attendanceStep
  simp only []
  split <;> rfl

lemma updateExisting_snd (st : PassState) (inc : Record) (rn : Nat) (obj : Record) :
    (updateExisting st inc rn obj).2 =
      (if inc.smsOptIn = "Yes" then { mergeRecords obj inc with smsOptIn := "Yes" }
       else mergeRecords obj inc) := rfl

lemma updateExisting_fst_db (st : PassState) (inc : Record) (rn : Nat) (obj : Record) :
    (updateExisting st inc rn obj).1.db =
      writeBackRow st.db rn (updateExisting st inc rn obj).2 := rfl

lemma updateExisting_fst_welcomes (st : PassState) (inc : Record) (rn : Nat) (obj : Record) :
    (updateExisting st inc rn obj).1.welcomes =
      (if inc.smsOptIn = "Yes" ∧ lowerStr obj.smsOptIn ≠ "yes"
            ∧ (updateExisting st inc rn obj).2.phone ≠ "" then
        st.welcomes ++ [toE164 (updateExisting st inc rn obj).2.phone]
      else st.welcomes) := rfl

lemma updateExisting_snd_campusEmail (st : PassState) (inc : Record) (rn : Nat)
    (obj : Record) (h : inc.campusEmail ≠ "") :
    (updateExisting st inc rn obj).2.campusEmail = inc.campusEmail := by
  rw [updateExisting_snd]
  split <;> simp [mergeRecords, h]

lemma updateExisting_snd_smsOptIn_of_yes (st : PassState) (inc : Record) (rn : Nat)
    (obj : Record) (h : inc.smsOptIn = "Yes") :
    (updateExisting st inc rn obj).2.smsOptIn = "Yes" := by
  rw [updateExisting_snd, if_pos h]

lemma insertNew_snd (today : String) (st : PassState) (inc : Record) :
    (insertNew today st inc).2 =
      (let n1 := if inc.joinDate = "" then { inc with joinDate := today } else inc
       if inc.smsOptIn = "Yes" then { n1 with smsOptIn := "Yes" }
       else if n1.smsOptIn = "" then { n1 with smsOptIn := "?" } else n1) := rfl

lemma insertNew_fst_db (today : String) (st : PassState) (inc : Record) :
    (insertNew today st inc).1.db = st.db ++ [(insertNew today st inc).2] := rfl

lemma insertNew_fst_welcomes (today : String) (st : PassState) (inc : Record) :
    (insertNew today st inc).1.welcomes =
      (if inc.smsOptIn = "Yes" ∧ (insertNew today st inc).2.phone ≠ "" then
        st.welcomes ++ [toE164 (insertNew today st inc).2.phone]
      else st.welcomes) := rfl

lemma insertNew_snd_campusEmail (today : String) (st : PassState) (inc : Record) :
    (insertNew today st inc).2.campusEmail = inc.campusEmail := by
  rw [insertNew_snd]
  by_cases h1 : inc.joinDate = "" <;> by_cases h2 : inc.smsOptIn = "Yes" <;>
    simp only [h1, h2, if_pos, if_neg, if_true, if_false] <;> split <;> rfl

lemma insertNew_snd_smsOptIn_of_yes (today : String) (st : PassState) (inc : Record)
    (h : inc.smsOptIn = "Yes") :
    (insertNew today st inc).2.smsOptIn = "Yes" := by
  rw [insertNew_snd]
  by_cases h1 : inc.joinDate = "" <;> simp only [h1, h, if_pos, if_neg, if_true, if_false]

lemma set_append_length (xs ys : List α) (a b : α) :
    (xs ++ a :: ys).set xs.length b = xs ++ b :: ys := by
  induction xs with
  | nil => rfl
  | cons x xs ih => simp [List.set, ih]

lemma syncPass_single (today : String) (st : PassState) (S : Submission) :
    syncPass today st [S] =
      ((syncStep today (buildIndex st.db) st S).1,
       [(syncStep today (buildIndex st.db) st S).2]) := rfl

lemma rowKey_of_campus {r : Record} {e : String} (hc : r.campusEmail = e)
    (he : e ≠ "") (het : trimStr e = e) :
    rowKey r = some (makeIndexKey .campusEmail e) := by
  unfold rowKey
  rw [inferMatchKey_of_campus hc he het]
  simp only [hc, firstNonEmpty_head _ he het, if_neg he]

/-! ### C1: duplicate insertion -/

/-- C1 counterexample: two unprocessed submissions carrying the same campus
email, both processed by ONE sync pass against an empty Student Database,
produce TWO roster records for that identity — the lookup index is built once
at pass start and is not updated after the first insert, so the second
submission also misses and inserts.  The claim demands exactly one record. -/
theorem C1_duplicate_insert_counterexample :
    ((syncPass "9/1/2025" ⟨[], [], []⟩
        [⟨⟨"", "Bob Bee", "", "", "", "", "b@campus.edu", "", ""⟩, "", ""⟩,
         ⟨⟨"", "Bob Bee", "", "", "", "", "b@campus.edu", "", ""⟩, "", ""⟩]).1.db).countP
      (hasIdentityCE "b@campus.edu") = 2 := by
  decide

/-- C1 (amended): when the two submissions with the same resolvable campus
email identity are processed in two separate sync passes — so that the lookup
index is rebuilt from the roster in between — exactly one roster record for
that identity exists afterwards: the first pass inserts it and the second
pass updates it in place. -/
theorem C1_two_pass_no_duplicate
    (db0 : List Record) (att0 : List AttRow) (A B : Submission)
    (e today1 today2 : String)
    (he : e ≠ "")
    (hA : (incomingOf A).campusEmail = e)
    (hB : (incomingOf B).campusEmail = e)
    (hApr : lowerStr A.processed ≠ "yes")
    (hBpr : lowerStr B.processed ≠ "yes")
    (h0 : ∀ r ∈ db0, lowerStr (trimStr r.campusEmail) ≠ e) :
    ((syncPass today2
        ⟨(syncPass today1 ⟨db0, att0, []⟩ [A]).1.db,
         (syncPass today1 ⟨db0, att0, []⟩ [A]).1.att, []⟩ [B]).1.db.countP
      (hasIdentityCE e) = 1)
    ∧ (syncPass today2
        ⟨(syncPass today1 ⟨db0, att0, []⟩ [A]).1.db,
         (syncPass today1 ⟨db0, att0, []⟩ [A]).1.att, []⟩ [B]).1.db.length
      = db0.length + 1 := by
  have hA' : normalizeFieldValue .campusEmail (trimStr A.raw.campusEmail) = e := hA
  obtain ⟨het, hel⟩ := normalizeCampus_shape hA' he
  have hkeys0 : ∀ r ∈ db0, rowKey r ≠ some (makeIndexKey .campusEmail e) :=
    fun r hr => rowKey_ne_of_no_identity het hel (h0 r hr)
  -- pass 1: the index has no entry for the identity, so the insert branch runs
  have hnone : mapGet (buildIndex db0) (makeIndexKey .campusEmail e) = none := by
    unfold buildIndex
    rw [buildIndexAux_get_of_none hkeys0]
    rfl
  have hp1 : syncPass today1 ⟨db0, att0, []⟩ [A]
      = ((attendanceStep (insertNew today1 ⟨db0, att0, []⟩ (incomingOf A)).1 A
            (insertNew today1 ⟨db0, att0, []⟩ (incomingOf A)).2),
         [{ A with processed := "YES" }]) := by
    rw [syncPass_single, syncStep_unmatched hApr he het hA hnone]
  set N := (insertNew today1 ⟨db0, att0, []⟩ (incomingOf A)).2 with hN
  have hdb1 : (syncPass today1 ⟨db0, att0, []⟩ [A]).1.db = db0 ++ [N] := by
    rw [hp1]
    rw [attendanceStep_db, insertNew_fst_db]
  have hNce : N.campusEmail = e := by
    rw [hN, insertNew_snd_campusEmail, hA]
  -- pass 2: the rebuilt index resolves the identity to the inserted row
  have hfound : mapGet (buildIndex ((syncPass today1 ⟨db0, att0, []⟩ [A]).1.db))
      (makeIndexKey .campusEmail e) = some (db0.length + 2, N) := by
    rw [hdb1]
    exact mapGet_buildIndex_at db0 [] N _ (rowKey_of_campus hNce he het)
      (fun r hr => absurd hr (List.not_mem_nil r))
  have hp2 : syncPass today2
      ⟨(syncPass today1 ⟨db0, att0, []⟩ [A]).1.db,
       (syncPass today1 ⟨db0, att0, []⟩ [A]).1.att, []⟩ [B]
      = ((attendanceStep
            (updateExisting
              ⟨(syncPass today1 ⟨db0, att0, []⟩ [A]).1.db,
               (syncPass today1 ⟨db0, att0, []⟩ [A]).1.att, []⟩
              (incomingOf B) (db0.length + 2) N).1 B
            (updateExisting
              ⟨(syncPass today1 ⟨db0, att0, []⟩ [A]).1.db,
               (syncPass today1 ⟨db0, att0, []⟩ [A]).1.att, []⟩
              (incomingOf B) (db0.length + 2) N).2),
         [{ B with processed := "YES" }]) := by
    rw [syncPass_single, syncStep_matched hBpr he het hB hfound]
  set U := (updateExisting
      ⟨(syncPass today1 ⟨db0, att0, []⟩ [A]).1.db,
       (syncPass today1 ⟨db0, att0, []⟩ [A]).1.att, []⟩
      (incomingOf B) (db0.length + 2) N).2 with hU
  have hUce : U.campusEmail = e := by
    rw [hU, updateExisting_snd_campusEmail _ _ _ _ (by rw [hB]; exact he), hB]
  have hdb2 : (syncPass today2
      ⟨(syncPass today1 ⟨db0, att0, []⟩ [A]).1.db,
       (syncPass today1 ⟨db0, att0, []⟩ [A]).1.att, []⟩ [B]).1.db = db0 ++ [U] := by
    rw [hp2]
    rw [attendanceStep_db, updateExisting_fst_db, ← hU]
    show writeBackRow ((syncPass today1 ⟨db0, att0, []⟩ [A]).1.db) (db0.length + 2) U
        = db0 ++ [U]
    rw [hdb1]
    unfold writeBackRow
    have harith : db0.length + 2 - 2 = db0.length := by omega
    rw [harith]
    exact set_append_length db0 [] N U
  rw [hdb2]
  constructor
  · rw [List.countP_append]
    have hz : db0.countP (hasIdentityCE e) = 0 := by
      rw [List.countP_eq_zero]
      intro r hr
      simp only [hasIdentityCE, beq_iff_eq]
      exact h0 r hr
    have ho : List.countP (hasIdentityCE e) [U] = 1 := by
      simp [hasIdentityCE, hUce, het, hel]
    rw [hz, ho]
  · simp

/-- Witness for the amended C1 at concrete inputs: same campus email submitted
in two separate passes leaves exactly one roster record. -/
theorem C1_two_pass_no_duplicate_witness :
    ((syncPass "9/2/2025"
        ⟨(syncPass "9/1/2025" ⟨[], [], []⟩
            [⟨⟨"", "Cara Cat", "", "", "", "", "c@campus.edu", "", ""⟩, "", ""⟩]).1.db,
         (syncPass "9/1/2025" ⟨[], [], []⟩
            [⟨⟨"", "Cara Cat", "", "", "", "", "c@campus.edu", "", ""⟩, "", ""⟩]).1.att,
         []⟩
        [⟨⟨"", "Cara C Cat", "", "", "", "", "C@Campus.edu ", "", ""⟩, "", ""⟩]).1.db.countP
      (hasIdentityCE "c@campus.edu") = 1) := by
  have h := C1_two_pass_no_duplicate [] []
    ⟨⟨"", "Cara Cat", "", "", "", "", "c@campus.edu", "", ""⟩, "", ""⟩
    ⟨⟨"", "Cara C Cat", "", "", "", "", "C@Campus.edu ", "", ""⟩, "", ""⟩
    "c@campus.edu" "9/1/2025" "9/2/2025"
    (by decide) (by decide) (by decide) (by decide) (by decide)
    (fun r hr => absurd hr (List.not_mem_nil r))
  exact h.1

/-! ### C6: the one-time welcome SMS -/

/-- C6 counterexample: one already-existing record with opt-in `"?"` receives
two affirmative submissions in the SAME sync pass; the previous-opt-in check
reads the stale pass-start index copy of the row both times, so the welcome
SMS fires twice for one genuine transition.  The claim demands at most one. -/
theorem C6_welcome_refires_counterexample :
    ((syncPass "9/1/2025"
        ⟨[⟨"1/1/2024", "Dana Dog", "", "", "", "", "d@campus.edu", "5551234567", "?"⟩],
         [], []⟩
        [⟨⟨"", "Dana Dog", "", "", "", "", "d@campus.edu", "5551234567", "Opt in"⟩, "", ""⟩,
         ⟨⟨"", "Dana Dog", "", "", "", "", "d@campus.edu", "5551234567", "Opt in"⟩, "", ""⟩]
      ).1.welcomes).length = 2 := by
  decide

/-- C6 (amended): the welcome SMS fires at most once per pass-start snapshot
transition, and across separate sync passes an opted-in record never fires it
again: after a pass processes an affirmative submission for a record, the
stored opt-in is the canonical `"Yes"`, so any later pass processing another
submission for the same record fires no welcome at all.  (Within a single
pass, duplicate affirmative submissions each fire, because the previous-value
check reads the pass-start index snapshot.) -/
theorem C6_welcome_once_across_passes
    (pre post : List Record) (att0 : List AttRow) (P : Record) (A B : Submission)
    (e today1 today2 : String)
    (he : e ≠ "")
    (hA : (incomingOf A).campusEmail = e) (hAyes : (incomingOf A).smsOptIn = "Yes")
    (hB : (incomingOf B).campusEmail = e)
    (hApr : lowerStr A.processed ≠ "yes") (hBpr : lowerStr B.processed ≠ "yes")
    (hP : P.campusEmail = e)
    (hpost : ∀ r ∈ post, lowerStr (trimStr r.campusEmail) ≠ e) :
    (syncPass today1 ⟨pre ++ P :: post, att0, []⟩ [A]).1.welcomes.length ≤ 1
    ∧ (syncPass today2
        ⟨(syncPass today1 ⟨pre ++ P :: post, att0, []⟩ [A]).1.db,
         (syncPass today1 ⟨pre ++ P :: post, att0, []⟩ [A]).1.att, []⟩ [B]).1.welcomes
      = [] := by
  have hA' : normalizeFieldValue .campusEmail (trimStr A.raw.campusEmail) = e := hA
  obtain ⟨het, hel⟩ := normalizeCampus_shape hA' he
  have hkpost : ∀ r ∈ post, rowKey r ≠ some (makeIndexKey .campusEmail e) :=
    fun r hr => rowKey_ne_of_no_identity het hel (hpost r hr)
  -- pass 1 finds P in the index and updates it
  have hfound1 : mapGet (buildIndex (pre ++ P :: post)) (makeIndexKey .campusEmail e)
      = some (pre.length + 2, P) :=
    mapGet_buildIndex_at pre post P _ (rowKey_of_campus hP he het) hkpost
  have hp1 : syncPass today1 ⟨pre ++ P :: post, att0, []⟩ [A]
      = ((attendanceStep
            (updateExisting ⟨pre ++ P :: post, att0, []⟩ (incomingOf A)
              (pre.length + 2) P).1 A
            (updateExisting ⟨pre ++ P :: post, att0, []⟩ (incomingOf A)
              (pre.length + 2) P).2),
         [{ A with processed := "YES" }]) := by
    rw [syncPass_single, syncStep_matched hApr he het hA hfound1]
  set U1 := (updateExisting ⟨pre ++ P :: post, att0, []⟩ (incomingOf A)
      (pre.length + 2) P).2 with hU1
  have hU1opt : U1.smsOptIn = "Yes" := by
    rw [hU1, updateExisting_snd_smsOptIn_of_yes _ _ _ _ hAyes]
  have hU1ce : U1.campusEmail = e := by
    rw [hU1, updateExisting_snd_campusEmail _ _ _ _ (by rw [hA]; exact he), hA]
  have hdb1 : (syncPass today1 ⟨pre ++ P :: post, att0, []⟩ [A]).1.db
      = pre ++ U1 :: post := by
    rw [hp1]
    rw [attendanceStep_db, updateExisting_fst_db, ← hU1]
    show writeBackRow (pre ++ P :: post) (pre.length + 2) U1 = pre ++ U1 :: post
    unfold writeBackRow
    have harith : pre.length + 2 - 2 = pre.length := by omega
    rw [harith]
    exact set_append_length pre post P U1
  constructor
  · -- pass 1 appends at most one welcome to the empty list
    rw [hp1]
    rw [attendanceStep_welcomes, updateExisting_fst_welcomes]
    split
    · simp
    · simp
  · -- pass 2 matches the updated record, whose opt-in is already "Yes"
    have hfound2 : mapGet
        (buildIndex ((syncPass today1 ⟨pre ++ P :: post, att0, []⟩ [A]).1.db))
        (makeIndexKey .campusEmail e) = some (pre.length + 2, U1) := by
      rw [hdb1]
      exact mapGet_buildIndex_at pre post U1 _ (rowKey_of_campus hU1ce he het) hkpost
    rw [syncPass_single, syncStep_matched hBpr he het hB hfound2]
    rw [attendanceStep_welcomes, updateExisting_fst_welcomes]
    rw [if_neg]
    intro hcond
    apply hcond.2.1
    rw [hU1opt]
    decide

/-- Witness for the amended C6 at concrete inputs: the second affirmative
submission for the same person, processed in a second pass, fires no welcome
SMS, and the first pass fires at most one. -/
theorem C6_welcome_once_across_passes_witness :
    (syncPass "9/1/2025"
        ⟨[] ++ ⟨"1/1/2024", "Evan Elk", "", "", "", "", "e@campus.edu", "5559876543", "?"⟩ :: [],
         [], []⟩
        [⟨⟨"", "Evan Elk", "", "", "", "", "e@campus.edu", "5559876543", "Yes"⟩, "", ""⟩]
      ).1.welcomes.length ≤ 1
    ∧ (syncPass "9/2/2025"
        ⟨(syncPass "9/1/2025"
            ⟨[] ++ ⟨"1/1/2024", "Evan Elk", "", "", "", "", "e@campus.edu", "5559876543", "?"⟩ :: [],
             [], []⟩
            [⟨⟨"", "Evan Elk", "", "", "", "", "e@campus.edu", "5559876543", "Yes"⟩, "", ""⟩]).1.db,
         (syncPass "9/1/2025"
            ⟨[] ++ ⟨"1/1/2024", "Evan Elk", "", "", "", "", "e@campus.edu", "5559876543", "?"⟩ :: [],
             [], []⟩
            [⟨⟨"", "Evan Elk", "", "", "", "", "e@campus.edu", "5559876543", "Yes"⟩, "", ""⟩]).1.att,
         []⟩
        [⟨⟨"", "Evan Elk", "", "", "", "", "e@campus.edu", "5559876543", "Yes"⟩, "", ""⟩]
      ).1.welcomes = [] :=
  C6_welcome_once_across_passes [] [] []
    ⟨"1/1/2024", "Evan Elk", "", "", "", "", "e@campus.edu", "5559876543", "?"⟩
    ⟨⟨"", "Evan Elk", "", "", "", "", "e@campus.edu", "5559876543", "Yes"⟩, "", ""⟩
    ⟨⟨"", "Evan Elk", "", "", "", "", "e@campus.edu", "5559876543", "Yes"⟩, "", ""⟩
    "e@campus.edu" "9/1/2025" "9/2/2025"
    (by decide) (by decide) (by decide) (by decide) (by decide) (by decide) (by decide)
    (fun r hr => absurd hr (List.not_mem_nil r))

/-! ### `smsBulkSend.js`: bulk sender with cursor resume

The HTTP roundtrip of `UrlFetchApp.fetch` is an oracle `send : phone → body →
Except String WireResp`; `Except.error` models a thrown network exception, and
an unparseable response body is a `WireResp` whose `json` is `none`. -/

/-- A Twilio error code: the numeric `code` of the response JSON (or the HTTP
status), or one of the sentinel strings the bulk sender uses. -/
inductive ErrCode
  | num (n : Int)
  | tag (s : String)
deriving DecidableEq, Repr

/-- How an error code is written into the tracking cell. -/
def errCodeCell : ErrCode → String
  | .num n => toString n
  | .tag s => s

/-- The JSON fields of a Twilio message response the scripts read.
`codeField` is the numeric `code` member (`none` when absent), `errorMessage`
the `error_message` member. -/
structure TwilioJson where
  sid : String
  codeField : Option Int
  message : String
  errorMessage : String
deriving DecidableEq, Repr

/-- One HTTP response: status code and parsed body (`none` = parse failure). -/
structure WireResp where
  code : Nat
  json : Option TwilioJson
deriving DecidableEq, Repr

/-- Result object of `sendTwilioSMS`. -/
inductive SendResult
  | success (messageSid : String)
  | failure (errorCode : ErrCode) (errorMessage : String)
deriving DecidableEq, Repr

/-- `sendTwilioSMS(to, body, …)`: config check, fetch, JSON parse, and
classification of the response.  `hasMsid`/`hasFrom` say which sender identity
is configured; `resp` is the oracle's wire response for this call. -/
def sendTwilioSMS (hasMsid hasFrom : Bool) (resp : Except String WireResp) : SendResult :=
  if ¬ hasMsid ∧ ¬ hasFrom then
    .failure (.tag "CONFIG_ERROR")
      "Neither TWILIO_FROM nor TWILIO_MESSAGING_SERVICE_SID is configured"
  else
    match resp with
    | .error e => .failure (.tag "NETWORK_ERROR") e
    | .ok r =>
      match r.json with
      | none => .failure (.tag "JSON_PARSE_ERROR") "Failed to parse Twilio response"
      | some j =>
        if r.code = 201 ∨ r.code = 200 then .success j.sid
        else
          let errorCode : ErrCode :=
            match j.codeField with
            | some c => if c = 0 then .num r.code else .num c
            | none => .num r.code
          let errorMessage :=
            if j.message ≠ "" then j.message
            else if j.errorMessage ≠ "" then j.errorMessage
            else "Unknown error"
          .failure errorCode errorMessage

/-- One Student Database row as the bulk sender sees it, restricted to the
mapped columns (phone, opt-in, optional message, four tracking columns). -/
structure BulkRow where
  phone : String
  optIn : String
  message : String
  lastSentAt : String
  lastErrorCode : String
  lastErrorMessage : String
  lastSendStatus : String
deriving DecidableEq, Repr

def emptyRow : BulkRow := ⟨"", "", "", "", "", "", ""⟩

/-- `isOptedIn(value)`. -/
def isOptedIn (value : String) : Bool :=
  if value = "" then false
  else
    let normalized := upperStr (trimStr value)
    normalized = "YES" ∨ normalized = "TRUE" ∨ normalized = "1" ∨
    normalized = "Y" ∨ normalized = "✓" ∨ normalized = "CHECKED"

/-- Replace the element at `i` (0-based); out of range leaves the list. -/
def modifyAt (f : α → α) : Nat → List α → List α
  | _, [] => []
  | 0, a :: as => f a :: as
  | n + 1, a :: as => a :: modifyAt f n as

/-- `updateRowSuccess(sheet, rowNumber, columnMap)` (`rowNumber` 1-based). -/
def updateRowSuccess (now : String) (sheet : List BulkRow) (rowNumber : Nat) :
    List BulkRow :=
  modifyAt (fun r => { r with
    lastSentAt := now
    lastSendStatus := "SENT"
    lastErrorCode := ""
    lastErrorMessage := "" }) (rowNumber - 1) sheet

/-- `updateRowOptOut(sheet, rowNumber, columnMap, sendResult)`: flip the
opt-in cell to `NO` and record the vendor error details. -/
def updateRowOptOut (now : String) (sheet : List BulkRow) (rowNumber : Nat)
    (errorCode : ErrCode) (errorMessage : String) : List BulkRow :=
  modifyAt (fun r => { r with
    optIn := "NO"
    lastSendStatus := "OPTED_OUT"
    lastErrorCode := errCodeCell errorCode
    lastErrorMessage := errorMessage
    lastSentAt := now }) (rowNumber - 1) sheet

/-- `updateRowError(sheet, rowNumber, columnMap, sendResult)`. -/
def updateRowError (now : String) (sheet : List BulkRow) (rowNumber : Nat)
    (errorCode : ErrCode) (errorMessage : String) : List BulkRow :=
  modifyAt (fun r => { r with
    lastSendStatus := "FAILED"
    lastErrorCode := errCodeCell errorCode
    lastErrorMessage := errorMessage
    lastSentAt := now }) (rowNumber - 1) sheet

def DEFAULT_MESSAGE : String := "Hello! This is a message from our system."

def BATCH_SIZE : Nat := 50

structure BatchStats where
  processed : Nat
  sent : Nat
  skipped : Nat
  failed : Nat
  optedOut : Nat
  hasMore : Bool
  nextCursor : Nat
deriving DecidableEq, Repr

/-- Result of the row loop: the live sheet, the stats, the indices of the
rows the loop visited (a proof-side trace, not JS state), and the loop
variable at exit. -/
structure LoopResult where
  sheet : List BulkRow
  stats : BatchStats
  visited : List Nat
  currentRow : Nat
deriving DecidableEq, Repr

/-- The `while` loop of `processBatch`.  `allData` is the snapshot read at
batch start (row values are read from it, as in the source); `sheet` is the
live sheet the update helpers write to.  Rate limiting (`Utilities.sleep`)
has no observable effect in the model. -/
def processLoop (send : String → String → Except String WireResp)
    (hasMsid hasFrom : Bool) (now : String) (allData : List BulkRow)
    (batchSize : Nat) (currentRow : Nat) (sheet : List BulkRow)
    (stats : BatchStats) (visited : List Nat) : LoopResult :=
  if h : currentRow < allData.length ∧ stats.processed < batchSize then
    let rowIndex := currentRow
    if rowIndex = 0 then
      -- header row: skip
      processLoop send hasMsid hasFrom now allData batchSize (currentRow + 1)
        sheet stats visited
    else
      let rowData := allData.getD rowIndex emptyRow
      let stats1 := { stats with processed := stats.processed + 1 }
      let visited1 := visited ++ [rowIndex]
      let sheetRowNumber := rowIndex + 1
      let message := if rowData.message ≠ "" then rowData.message else DEFAULT_MESSAGE
      if trimStr rowData.phone = "" then
        processLoop send hasMsid hasFrom now allData batchSize (currentRow + 1)
          sheet { stats1 with skipped := stats1.skipped + 1 } visited1
      else if ¬ isOptedIn rowData.optIn then
        processLoop send hasMsid hasFrom now allData batchSize (currentRow + 1)
          sheet { stats1 with skipped := stats1.skipped + 1 } visited1
      else
        match sendTwilioSMS hasMsid hasFrom (send rowData.phone message) with
        | .success _ =>
          processLoop send hasMsid hasFrom now allData batchSize (currentRow + 1)
            (updateRowSuccess now sheet sheetRowNumber)
            { stats1 with sent := stats1.sent + 1 } visited1
        | .failure errorCode errorMessage =>
          if errorCode = .num 21610 then
            processLoop send hasMsid hasFrom now allData batchSize (currentRow + 1)
              (updateRowOptOut now sheet sheetRowNumber errorCode errorMessage)
              { stats1 with optedOut := stats1.optedOut + 1 } visited1
          else
            processLoop send hasMsid hasFrom now allData batchSize (currentRow + 1)
              (updateRowError now sheet sheetRowNumber errorCode errorMessage)
              { stats1 with failed := stats1.failed + 1 } visited1
  else
    ⟨sheet, stats, visited, currentRow⟩
termination_by allData.length - currentRow
decreasing_by all_goals omega

structure BatchResult where
  sheet : List BulkRow
  stats : BatchStats
  visited : List Nat
  savedCursor : Option Nat
deriving DecidableEq, Repr

/-- `processBatch(sheet, allData, columnMap, credentials, startCursor)`:
run the loop and then either save the cursor (more rows remain) or report the
pass complete. -/
def processBatch (send : String → String → Except String WireResp)
    (hasMsid hasFrom : Bool) (now : String) (allData : List BulkRow)
    (startCursor : Nat) : BatchResult :=
  let r := processLoop send hasMsid hasFrom now allData BATCH_SIZE startCursor
    allData ⟨0, 0, 0, 0, 0, false, startCursor⟩ []
  if r.currentRow < allData.length then
    ⟨r.sheet, { r.stats with hasMore := true, nextCursor := r.currentRow },
     r.visited, some r.currentRow⟩
  else
    ⟨r.sheet, { r.stats with hasMore := false, nextCursor := allData.length },
     r.visited, none⟩

/-- `getCursor()`: the saved property or the default `1` (first data row). -/
def getCursor (props : Option Nat) : Nat := props.getD 1

/-- `resetBulkSMSCursor()` — the explicit operator action. -/
def resetCursor (_ : Option Nat) : Option Nat := none

/-- The cursor-relevant behaviour of `sendBulkSMS()`: read the cursor, process
one batch, persist the cursor saved by the batch, and reset it when the pass
finished all rows.  A sheet with no data rows returns early without touching
the cursor property (modelled with an empty result). -/
def runBulkPass (send : String → String → Except String WireResp)
    (hasMsid hasFrom : Bool) (now : String) (allData : List BulkRow)
    (props : Option Nat) : BatchResult × Option Nat :=
  let cursor := getCursor props
  if allData.length ≤ 1 then
    (⟨allData, ⟨0, 0, 0, 0, 0, false, cursor⟩, [], none⟩, props)
  else
    let result := processBatch send hasMsid hasFrom now allData cursor
    let props1 := match result.savedCursor with
      | some p => some p
      | none => props
    if result.stats.hasMore then (result, props1) else (result, none)

/-! ### `sms.js`: `sendSms_` and its log -/

/-- The Script Properties `sendSms_` reads (empty string = unset, matching the
JS truthiness check; `from` is a Lean keyword, hence `fromNumber`). -/
structure TwilioProps where
  sid : String
  token : String
  msid : String
  fromNumber : String
deriving DecidableEq, Repr

/-- One `SMS Log` row appended by `logSms_` (the timestamp is not modelled). -/
structure LogEntry where
  toNumber : String
  body : String
  sid : String
  httpCode : Nat
  err : String
deriving DecidableEq, Repr

/-- Wire response for `sendSms_`: HTTP status plus the parse of the body.
`Except.error` in `json` models a `JSON.parse` throw with its message. -/
structure SmsWire where
  code : Nat
  json : Except String TwilioJson
deriving Repr

/-- Return object of `sendSms_`. -/
inductive SendSmsResult
  | ok (sid : String)
  | err (error : String) (errorCode : Option Int)
deriving DecidableEq, Repr

/-- `sendSms_(toE164, body)`: returns the result object and the list of
`SMS Log` rows appended during the call. -/
def sendSms (props : TwilioProps) (resp : Except String SmsWire) (toE164Num body : String) :
    SendSmsResult × List LogEntry :=
  if props.sid = "" ∨ props.token = "" then
    (.err "Missing Twilio credentials (SID/TOKEN). Add Script Properties." none, [])
  else if props.msid = "" ∧ props.fromNumber = "" then
    (.err "Provide TWILIO_MESSAGING_SERVICE_SID or TWILIO_FROM_NUMBER in Script Properties."
      none, [])
  else
    match resp with
    | .error e => (.err e none, [⟨toE164Num, body, "", 0, e⟩])
    | .ok r =>
      match r.json with
      | .error e => (.err e none, [⟨toE164Num, body, "", 0, e⟩])
      | .ok j =>
        let logged : LogEntry :=
          ⟨toE164Num, body, j.sid, r.code,
           if j.errorMessage ≠ "" then j.errorMessage else j.message⟩
        if 200 ≤ r.code ∧ r.code < 300 then (.ok j.sid, [logged])
        else
          (.err (if j.message ≠ "" then j.message
                 else if j.errorMessage ≠ "" then j.errorMessage else "Unknown error")
            (some (match j.codeField with
                   | some c => if c = 0 then (r.code : Int) else c
                   | none => (r.code : Int))), [logged])

/-- `sendOneWithControls_`: in dry-run mode one log row with the DRY RUN
prefix is written and the vendor is never contacted; otherwise `sendSms_`
runs (its result is logged but errors are swallowed). -/
def sendOneWithControls (dryRun : Bool) (props : TwilioProps)
    (resp : Except String SmsWire) (toE164Num body : String) : List LogEntry :=
  if dryRun then [⟨toE164Num, "[DRY RUN] " ++ body, "DRYRUN", 0, ""⟩]
  else (sendSms props resp toE164Num body).2

/-! ### Invariants of the bulk-send loop -/

lemma modifyAt_getD_ne (f : α → α) (d : α) :
    ∀ (n j : Nat) (l : List α), j ≠ n → (modifyAt f n l).getD j d = l.getD j d := by
  intro n j l
  induction l generalizing n j with
  | nil => intro _; cases n <;> rfl
  | cons a as ih =>
    intro hj
    cases n with
    | zero =>
      cases j with
      | zero => exact absurd rfl hj
      | succ j => rfl
    | succ n =>
      cases j with
      | zero => rfl
      | succ j => exact ih n j (fun he => hj (by rw [he]))

lemma modifyAt_getD_self (f : α → α) (d : α) :
    ∀ (n : Nat) (l : List α), n < l.length → (modifyAt f n l).getD n d = f (l.getD n d) := by
  intro n l
  induction l generalizing n with
  | nil => intro h; simp at h
  | cons a as ih =>
    intro h
    cases n with
    | zero => rfl
    | succ n => exact ih n (by simpa using h)

/-- The row loop only visits rows at or after its start index, never touches
sheet rows before it, only moves its row pointer forward, and never decreases
the opted-out counter. -/
lemma processLoop_invariant (send : String → String → Except String WireResp)
    (hasMsid hasFrom : Bool) (now : String) (allData : List BulkRow) (batchSize : Nat) :
    ∀ (k currentRow : Nat) (sheet : List BulkRow) (stats : BatchStats)
      (visited : List Nat), allData.length - currentRow ≤ k →
      (∀ j ∈ (processLoop send hasMsid hasFrom now allData batchSize currentRow
          sheet stats visited).visited, j ∈ visited ∨ currentRow ≤ j)
      ∧ (∀ j, j < currentRow →
          (processLoop send hasMsid hasFrom now allData batchSize currentRow
            sheet stats visited).sheet.getD j emptyRow = sheet.getD j emptyRow)
      ∧ currentRow ≤ (processLoop send hasMsid hasFrom now allData batchSize currentRow
          sheet stats visited).currentRow
      ∧ stats.optedOut ≤ (processLoop send hasMsid hasFrom now allData batchSize currentRow
          sheet stats visited).stats.optedOut := by
  intro k
  induction k with
  | zero =>
    intro cur sheet stats visited hk
    rw [processLoop, dif_neg (fun hc : cur < allData.length ∧ _ => by omega)]
    exact ⟨fun j hj => Or.inl hj, fun j _ => rfl, le_refl _, le_refl _⟩
  | succ k ih =>
    intro cur sheet stats visited hk
    by_cases hc : cur < allData.length ∧ stats.processed < batchSize
    · rw [processLoop, dif_pos hc]
      have hk' : allData.length - (cur + 1) ≤ k := by omega
      by_cases h0 : cur = 0
      · rw [if_pos h0]
        obtain ⟨ih1, ih2, ih3, ih4⟩ := ih (cur + 1) sheet stats visited hk'
        exact ⟨fun j hj => (ih1 j hj).imp id (fun h => by omega),
               fun j hj => ih2 j (by omega),
               le_trans (Nat.le_succ _) ih3, ih4⟩
      · rw [if_neg h0]
        simp only []
        have step : ∀ (sheet' : List BulkRow) (stats' : BatchStats),
            (∀ j, j < cur → sheet'.getD j emptyRow = sheet.getD j emptyRow) →
            stats.optedOut ≤ stats'.optedOut →
            (∀ j ∈ (processLoop send hasMsid hasFrom now allData batchSize (cur + 1)
                sheet' stats' (visited ++ [cur])).visited, j ∈ visited ∨ cur ≤ j)
            ∧ (∀ j, j < cur →
                (processLoop send hasMsid hasFrom now allData batchSize (cur + 1)
                  sheet' stats' (visited ++ [cur])).sheet.getD j emptyRow
                  = sheet.getD j emptyRow)
            ∧ cur ≤ (processLoop send hasMsid hasFrom now allData batchSize (cur + 1)
                sheet' stats' (visited ++ [cur])).currentRow
            ∧ stats.optedOut ≤ (processLoop send hasMsid hasFrom now allData batchSize
                (cur + 1) sheet' stats' (visited ++ [cur])).stats.optedOut := by
          intro sheet' stats' hbelow hopt
          obtain ⟨ih1, ih2, ih3, ih4⟩ := ih (cur + 1) sheet' stats' (visited ++ [cur]) hk'
          refine ⟨?_, ?_, by omega, by omega⟩
          · intro j hj
            rcases ih1 j hj with h1 | h1
            · rcases List.mem_append.mp h1 with h2 | h2
              · exact Or.inl h2
              · simp only [List.mem_singleton] at h2
                exact Or.inr (by omega)
            · exact Or.inr (by omega)
          · intro j hj
            rw [ih2 j (by omega), hbelow j hj]
        by_cases hp : trimStr (allData.getD cur emptyRow).phone = ""
        · rw [if_pos hp]
          exact step _ _ (fun j _ => rfl) (le_refl _)
        · rw [if_neg hp]
          by_cases ho : isOptedIn (allData.getD cur emptyRow).optIn
          · rw [if_neg (by simp only [not_not]; exact ho)]
            cases hs : sendTwilioSMS hasMsid hasFrom
                (send (allData.getD cur emptyRow).phone
                  (if (allData.getD cur emptyRow).message ≠ ""
                   then (allData.getD cur emptyRow).message else DEFAULT_MESSAGE)) with
            | success sid =>
              exact step _ _ (fun j hj => modifyAt_getD_ne _ _ _ _ _ (by omega)) (le_refl _)
            | failure errorCode errorMessage =>
              simp only []
              by_cases h21 : errorCode = ErrCode.num 21610
              · rw [if_pos h21]
                exact step _ _ (fun j hj => modifyAt_getD_ne _ _ _ _ _ (by omega))
                  (Nat.le_succ _)
              · rw [if_neg h21]
                exact step _ _ (fun j hj => modifyAt_getD_ne _ _ _ _ _ (by omega)) (le_refl _)
          · rw [if_pos ho]
            exact step _ _ (fun j _ => rfl) (le_refl _)
    · rw [processLoop, dif_neg hc]
      exact ⟨fun j hj => Or.inl hj, fun j _ => rfl, le_refl _, le_refl _⟩

lemma processLoop_step_21610 (send : String → String → Except String WireResp)
    (hasMsid hasFrom : Bool) (now : String) (allData : List BulkRow) (batchSize : Nat)
    (i : Nat) (sheet : List BulkRow) (stats : BatchStats) (visited : List Nat)
    (em : String)
    (hc : i < allData.length) (hb : stats.processed < batchSize) (hi0 : i ≠ 0)
    (hp : trimStr (allData.getD i emptyRow).phone ≠ "")
    (ho : isOptedIn (allData.getD i emptyRow).optIn = true)
    (hs : sendTwilioSMS hasMsid hasFrom (send (allData.getD i emptyRow).phone
        (if (allData.getD i emptyRow).message ≠ "" then (allData.getD i emptyRow).message
         else DEFAULT_MESSAGE)) = .failure (.num 21610) em) :
    processLoop send hasMsid hasFrom now allData batchSize i sheet stats visited
      = processLoop send hasMsid hasFrom now allData batchSize (i + 1)
          (updateRowOptOut now sheet (i + 1) (.num 21610) em)
          { stats with
            processed := stats.processed + 1
            optedOut := stats.optedOut + 1 } (visited ++ [i]) := by
  rw [processLoop, dif_pos ⟨hc, hb⟩, if_neg hi0]
  simp only []
  rw [if_neg hp, if_neg (by simp only [not_not]; exact ho), hs]
  simp only []
  rw [if_pos trivial]

lemma processBatch_sheet (send : String → String → Except String WireResp)
    (hasMsid hasFrom : Bool) (now : String) (allData : List BulkRow) (c : Nat) :
    (processBatch send hasMsid hasFrom now allData c).sheet
      = (processLoop send hasMsid hasFrom now allData BATCH_SIZE c allData
          ⟨0, 0, 0, 0, 0, false, c⟩ []).sheet := by
  unfold processBatch
  simp only []
  split <;> rfl

lemma processBatch_visited (send : String → String → Except String WireResp)
    (hasMsid hasFrom : Bool) (now : String) (allData : List BulkRow) (c : Nat) :
    (processBatch send hasMsid hasFrom now allData c).visited
      = (processLoop send hasMsid hasFrom now allData BATCH_SIZE c allData
          ⟨0, 0, 0, 0, 0, false, c⟩ []).visited := by
  unfold processBatch
  simp only []
  split <;> rfl

lemma processBatch_optedOut (send : String → String → Except String WireResp)
    (hasMsid hasFrom : Bool) (now : String) (allData : List BulkRow) (c : Nat) :
    (processBatch send hasMsid hasFrom now allData c).stats.optedOut
      = (processLoop send hasMsid hasFrom now allData BATCH_SIZE c allData
          ⟨0, 0, 0, 0, 0, false, c⟩ []).stats.optedOut := by
  unfold processBatch
  simp only []
  split <;> rfl

lemma processBatch_cursor_cases (send : String → String → Except String WireResp)
    (hasMsid hasFrom : Bool) (now : String) (allData : List BulkRow) (c : Nat) :
    ((processBatch send hasMsid hasFrom now allData c).savedCursor
        = some ((processLoop send hasMsid hasFrom now allData BATCH_SIZE c allData
            ⟨0, 0, 0, 0, 0, false, c⟩ []).currentRow)
      ∧ (processBatch send hasMsid hasFrom now allData c).stats.hasMore = true)
    ∨ ((processBatch send hasMsid hasFrom now allData c).savedCursor = none
      ∧ (processBatch send hasMsid hasFrom now allData c).stats.hasMore = false) := by
  unfold processBatch
  simp only []
  split
  · exact Or.inl ⟨rfl, rfl⟩
  · exact Or.inr ⟨rfl, rfl⟩

/-! ### C2: error 21610 flips opt-in, records OPTED_OUT, and the batch
continues -/

/-- C2: when the vendor response for the send attempt at row `i` of a bulk
batch carries error code 21610, the batch run resumed at `i` leaves that row
with its opt-in cell set to the canonical negative `"NO"`, `Send Status` cell
`"OPTED_OUT"`, and the vendor error code and message recorded; the opted-out
counter is incremented; and the loop continues with the remaining rows: the
run is literally the run on the remaining rows from `i + 1`, started from the
updated sheet. -/
theorem C2_bulk_21610_optout (send : String → String → Except String WireResp)
    (hasMsid hasFrom : Bool) (now : String) (allData : List BulkRow)
    (i : Nat) (em : String)
    (hi0 : i ≠ 0) (hilen : i < allData.length)
    (hp : trimStr (allData.getD i emptyRow).phone ≠ "")
    (ho : isOptedIn (allData.getD i emptyRow).optIn = true)
    (hs : sendTwilioSMS hasMsid hasFrom (send (allData.getD i emptyRow).phone
        (if (allData.getD i emptyRow).message ≠ "" then (allData.getD i emptyRow).message
         else DEFAULT_MESSAGE)) = .failure (.num 21610) em) :
    (((processBatch send hasMsid hasFrom now allData i).sheet.getD i emptyRow).optIn = "NO"
      ∧ ((processBatch send hasMsid hasFrom now allData i).sheet.getD i
          emptyRow).lastSendStatus = "OPTED_OUT"
      ∧ ((processBatch send hasMsid hasFrom now allData i).sheet.getD i
          emptyRow).lastErrorCode = "21610"
      ∧ ((processBatch send hasMsid hasFrom now allData i).sheet.getD i
          emptyRow).lastErrorMessage = em)
    ∧ 1 ≤ (processBatch send hasMsid hasFrom now allData i).stats.optedOut
    ∧ processLoop send hasMsid hasFrom now allData BATCH_SIZE i allData
        ⟨0, 0, 0, 0, 0, false, i⟩ []
      = processLoop send hasMsid hasFrom now allData BATCH_SIZE (i + 1)
          (updateRowOptOut now allData (i + 1) (.num 21610) em)
          ⟨1, 0, 0, 0, 1, false, i⟩ [i] := by
  have hstep := processLoop_step_21610 send hasMsid hasFrom now allData BATCH_SIZE i
    allData ⟨0, 0, 0, 0, 0, false, i⟩ [] em hilen (by simp [BATCH_SIZE]) hi0 hp ho hs
  have hrow : (processLoop send hasMsid hasFrom now allData BATCH_SIZE i allData
      ⟨0, 0, 0, 0, 0, false, i⟩ []).sheet.getD i emptyRow
      = (updateRowOptOut now allData (i + 1) (.num 21610) em).getD i emptyRow := by
    rw [hstep]
    exact (processLoop_invariant send hasMsid hasFrom now allData BATCH_SIZE
      allData.length (i + 1) (updateRowOptOut now allData (i + 1) (.num 21610) em)
      ⟨1, 0, 0, 0, 1, false, i⟩ [i] (by omega)).2.1 i (by omega)
  have hcell : (updateRowOptOut now allData (i + 1) (.num 21610) em).getD i emptyRow
      = { allData.getD i emptyRow with
          optIn := "NO"
          lastSendStatus := "OPTED_OUT"
          lastErrorCode := errCodeCell (.num 21610)
          lastErrorMessage := em
          lastSentAt := now } := by
    unfold updateRowOptOut
    have harith : i + 1 - 1 = i := by omega
    rw [harith]
    exact modifyAt_getD_self _ _ i allData hilen
  refine ⟨?_, ?_, hstep⟩
  · rw [processBatch_sheet, hrow, hcell]
    refine ⟨rfl, rfl, ?_, rfl⟩
    show errCodeCell (.num 21610) = "21610"
    decide
  · rw [processBatch_optedOut, hstep]
    exact (processLoop_invariant send hasMsid hasFrom now allData BATCH_SIZE
      allData.length (i + 1) (updateRowOptOut now allData (i + 1) (.num 21610) em)
      ⟨1, 0, 0, 0, 1, false, i⟩ [i] (by omega)).2.2.2

/-- Witness for C2 at concrete inputs: a 2-row sheet whose data row receives a
21610 response ends with opt-in `NO` and status `OPTED_OUT`, and the counter
shows the one opted-out recipient. -/
theorem C2_bulk_21610_optout_witness :
    (((processBatch
        (fun _ _ => .ok ⟨400, some ⟨"", some 21610, "opted out", ""⟩⟩) true false
        "10/1/2025"
        [emptyRow, ⟨"+15551234567", "Yes", "", "", "", "", ""⟩] 1).sheet.getD 1
        emptyRow).optIn = "NO"
      ∧ (((processBatch
        (fun _ _ => .ok ⟨400, some ⟨"", some 21610, "opted out", ""⟩⟩) true false
        "10/1/2025"
        [emptyRow, ⟨"+15551234567", "Yes", "", "", "", "", ""⟩] 1).sheet.getD 1
        emptyRow).lastSendStatus = "OPTED_OUT"))
    ∧ 1 ≤ (processBatch
        (fun _ _ => .ok ⟨400, some ⟨"", some 21610, "opted out", ""⟩⟩) true false
        "10/1/2025"
        [emptyRow, ⟨"+15551234567", "Yes", "", "", "", "", ""⟩] 1).stats.optedOut := by
  have h := C2_bulk_21610_optout
    (fun _ _ => .ok ⟨400, some ⟨"", some 21610, "opted out", ""⟩⟩) true false
    "10/1/2025" [emptyRow, ⟨"+15551234567", "Yes", "", "", "", "", ""⟩] 1 "opted out"
    (by decide) (by decide) (by decide) (by decide) (by decide)
  exact ⟨⟨h.1.1, h.1.2.1⟩, h.2.1⟩

/-! ### C9: the batch cursor -/

/-- C9: a bulk pass resuming from the saved cursor `N` visits only row indices
`≥ N`, leaves every sheet row strictly before `N` untouched, persists only
cursor values `≥ N` (monotonically non-decreasing), and clears the persisted
cursor only when the pass reports no more rows (a full pass completed);
`resetCursor` is the separate explicit operator action. -/
theorem C9_cursor_resume (send : String → String → Except String WireResp)
    (hasMsid hasFrom : Bool) (now : String) (allData : List BulkRow)
    (props : Option Nat) :
    (∀ j ∈ (runBulkPass send hasMsid hasFrom now allData props).1.visited,
        getCursor props ≤ j)
    ∧ (∀ j, j < getCursor props →
        (runBulkPass send hasMsid hasFrom now allData props).1.sheet.getD j emptyRow
          = allData.getD j emptyRow)
    ∧ (∀ p, (runBulkPass send hasMsid hasFrom now allData props).2 = some p →
        getCursor props ≤ p)
    ∧ ((runBulkPass send hasMsid hasFrom now allData props).2 = none →
        (runBulkPass send hasMsid hasFrom now allData props).1.stats.hasMore = false) := by
  unfold runBulkPass
  simp only []
  by_cases hlen : allData.length ≤ 1
  · rw [if_pos hlen]
    refine ⟨fun j hj => absurd hj (List.not_mem_nil j), fun j _ => rfl, ?_, fun _ => rfl⟩
    intro p hp
    cases props with
    | none => exact absurd hp (by simp)
    | some q =>
      have hq : q = p := by simpa using hp
      subst hq
      exact le_refl _
  · rw [if_neg hlen]
    obtain ⟨h1, h2, h3, _⟩ := processLoop_invariant send hasMsid hasFrom now allData
      BATCH_SIZE allData.length (getCursor props) allData
      ⟨0, 0, 0, 0, 0, false, getCursor props⟩ [] (by omega)
    rcases processBatch_cursor_cases send hasMsid hasFrom now allData (getCursor props)
      with ⟨hsv, hhm⟩ | ⟨hsv, hhm⟩
    · rw [hsv, hhm]
      simp only [if_pos]
      refine ⟨?_, ?_, ?_, ?_⟩
      · intro j hj
        rw [processBatch_visited] at hj
        rcases h1 j hj with h | h
        · exact absurd h (List.not_mem_nil j)
        · exact h
      · intro j hj
        rw [processBatch_sheet]
        exact h2 j hj
      · intro p hp
        have : (processLoop send hasMsid hasFrom now allData BATCH_SIZE
            (getCursor props) allData ⟨0, 0, 0, 0, 0, false, getCursor props⟩
            []).currentRow = p := by simpa using hp
        omega
      · intro hp
        exact absurd hp (by simp)
    · rw [hsv, hhm]
      simp only [Bool.false_eq_true, if_false]
      refine ⟨?_, ?_, fun p hp => absurd hp (by simp), fun _ => hhm⟩
      · intro j hj
        rw [processBatch_visited] at hj
        rcases h1 j hj with h | h
        · exact absurd h (List.not_mem_nil j)
        · exact h
      · intro j hj
        rw [processBatch_sheet]
        exact h2 j hj

/-- Witness for C9 at concrete inputs: resuming from saved cursor 2 on a
3-row sheet visits only row 2, leaves row 1 untouched, and ends with the
cursor cleared because the pass completed. -/
theorem C9_cursor_resume_witness :
    (∀ j ∈ (runBulkPass (fun _ _ => .ok ⟨201, some ⟨"SM1", none, "", ""⟩⟩) true false
        "10/1/2025"
        [emptyRow, ⟨"+15550000001", "Yes", "", "", "", "", ""⟩,
         ⟨"+15550000002", "Yes", "", "", "", "", ""⟩] (some 2)).1.visited, 2 ≤ j)
    ∧ (runBulkPass (fun _ _ => .ok ⟨201, some ⟨"SM1", none, "", ""⟩⟩) true false
        "10/1/2025"
        [emptyRow, ⟨"+15550000001", "Yes", "", "", "", "", ""⟩,
         ⟨"+15550000002", "Yes", "", "", "", "", ""⟩] (some 2)).1.sheet.getD 1 emptyRow
      = ⟨"+15550000001", "Yes", "", "", "", "", ""⟩ := by
  constructor
  · exact (C9_cursor_resume (fun _ _ => .ok ⟨201, some ⟨"SM1", none, "", ""⟩⟩) true false
      "10/1/2025"
      [emptyRow, ⟨"+15550000001", "Yes", "", "", "", "", ""⟩,
       ⟨"+15550000002", "Yes", "", "", "", "", ""⟩] (some 2)).1
  · have h := (C9_cursor_resume (fun _ _ => .ok ⟨201, some ⟨"SM1", none, "", ""⟩⟩) true
      false "10/1/2025"
      [emptyRow, ⟨"+15550000001", "Yes", "", "", "", "", ""⟩,
       ⟨"+15550000002", "Yes", "", "", "", "", ""⟩] (some 2)).2.1 1 (by decide)
    rw [h]
    decide

/-! ### C3: is every send attempt logged? -/

/-- C3 counterexample: an invocation of `sendSms_` with the auth token missing
returns an error result WITHOUT appending any log record — the
missing-credentials check returns before the fetch and before any `logSms_`
call.  The claim says no input or configuration lets an attempt return
unlogged. -/
theorem C3_missing_creds_unlogged_counterexample :
    (sendSms ⟨"AC1", "", "MS1", ""⟩ (.ok ⟨201, .ok ⟨"SM1", none, "", ""⟩⟩)
      "+15551234567" "hello").2.length = 0 := rfl

/-- C3 (amended): every invocation that passes the configuration checks —
credentials present and a sender identity configured — appends exactly one
log record, whatever the outcome: success, vendor rejection, network throw,
or unparseable body; and a dry-run send also logs exactly once.  Only the
two missing-configuration early returns of `sendSms_` append none. -/
theorem C3_configured_attempts_logged (dryRun : Bool) (props : TwilioProps)
    (resp : Except String SmsWire) (toNum body : String)
    (hcreds : dryRun = false →
      props.sid ≠ "" ∧ props.token ≠ "" ∧ (props.msid ≠ "" ∨ props.fromNumber ≠ "")) :
    (sendOneWithControls dryRun props resp toNum body).length = 1 := by
  unfold sendOneWithControls
  cases dryRun with
  | true => rw [if_pos rfl]; rfl
  | false =>
    obtain ⟨h1, h2, h3⟩ := hcreds rfl
    rw [if_neg (by simp)]
    unfold sendSms
    rw [if_neg (by push_neg; exact ⟨h1, h2⟩),
        if_neg (fun hm => by
          rcases h3 with h | h
          · exact h hm.1
          · exact h hm.2)]
    split
    · rfl
    · split
      · rfl
      · simp only []
        split <;> rfl

/-- Witness for the amended C3 at concrete inputs: a configured sender whose
fetch throws a network exception still appends exactly one log record. -/
theorem C3_configured_attempts_logged_witness :
    (sendOneWithControls false ⟨"AC1", "tok", "MS1", ""⟩ (.error "network down")
      "+15551234567" "hi").length = 1 :=
  C3_configured_attempts_logged false ⟨"AC1", "tok", "MS1", ""⟩ (.error "network down")
    "+15551234567" "hi"
    (fun _ => ⟨by decide, by decide, Or.inl (by decide)⟩)

/-! ### `smsInbound.js`: the STOP/START webhook

The Student Database is modelled as the value grid `getDataRange().getValues()`
returns: a list of rows of cells, row 0 being the header row.  The handler
reads from this snapshot and writes single cells back; the model threads the
grid.  (`logInbound_` rows are an audit side channel no claim touches and are
not modelled.) -/

/-- Cell access on a possibly ragged grid (missing cells read as blank). -/
def cellD (g : List (List String)) (r c : Nat) : String := (g.getD r []).getD c ""

/-- `db.getRange(r + 1, c + 1).setValue(v)` on the grid (0-based `r`, `c`). -/
def setCell (g : List (List String)) (r c : Nat) (v : String) : List (List String) :=
  modifyAt (fun row => row.set c v) r g

/-- The `findCol` lookup of `updateOptInByPhone_`: first header matching
case-insensitively after trimming (`none` models the `-1` result). -/
def findCol (headers : List String) (want : String) : Option Nat :=
  headers.findIdx? fun h => lowerStr (trimStr h) = lowerStr (trimStr want)

/-- `normalizePhoneDigits_(v)`: bare digits, dropping a leading US `1` from
11-digit numbers. -/
def normalizePhoneDigits (v : String) : String :=
  let d := digitsOnly v
  if d.length = 11 ∧ jsStartsWith d "1" then ⟨d.data.drop 1⟩ else d

/-- The row loop of `updateOptInByPhone_`: scan data rows of the snapshot
`vals`, write `value` into the opt-in cell of every row whose normalized phone
matches `want`, stopping after the first match unless `updateAll`. -/
def optInLoop (vals : List (List String)) (cPhone cOpt : Nat) (want value : String)
    (updateAll : Bool) : Nat → List (List String) → Bool → List (List String) × Bool
  | r, sheet, changed =>
    if h : r < vals.length then
      let haveDigits := normalizePhoneDigits (cellD vals r cPhone)
      if haveDigits ≠ "" ∧ haveDigits = want then
        let sheet' := setCell sheet r cOpt value
        if updateAll then optInLoop vals cPhone cOpt want value updateAll (r + 1) sheet' true
        else (sheet', true)
      else optInLoop vals cPhone cOpt want value updateAll (r + 1) sheet changed
    else (sheet, changed)
termination_by r => vals.length - r
decreasing_by all_goals omega

/-- `updateOptInByPhone_(fromNumber, value, opts)`: returns the updated grid
and the `changed` flag. -/
def updateOptInByPhone (vals : List (List String)) (fromNumber value : String)
    (updateAll : Bool) : List (List String) × Bool :=
  if vals.length < 2 then (vals, false)
  else
    match findCol (vals.getD 0 []) "phone #", findCol (vals.getD 0 []) "sms opt-in" with
    | some cPhone, some cOpt =>
      let want := normalizePhoneDigits fromNumber
      if want = "" then (vals, false)
      else optInLoop vals cPhone cOpt want value updateAll 1 vals false
    | _, _ => (vals, false)

/-- `escapeXml_(s)`. -/
def escapeXml (s : String) : String :=
  ⟨(s.data.map fun c =>
      if c = '&' then "&amp;".data
      else if c = '<' then "&lt;".data
      else if c = '>' then "&gt;".data
      else if c = '"' then "&quot;".data
      else if c = '\'' then "&apos;".data
      else [c]).flatten⟩

/-- `twiml_(message)`: the reply envelope. -/
def twiml (message : String) : String :=
  "<?xml version=\"1.0\" encoding=\"UTF-8\"?>" ++ "<Response>" ++
  (if message ≠ "" then "<Message>" ++ escapeXml message ++ "</Message>" else "") ++
  "</Response>"

def STOP_WORDS : List String :=
  ["STOP", "STOPALL", "UNSUBSCRIBE", "CANCEL", "END", "QUIT"]

/-- `doPost(e)` on an inbound message: the webhook parameters `From`, `Body`,
`MessageStatus`, and the Student Database grid; returns the reply XML and the
updated grid. -/
def doPost (fromNumber body0 status : String) (db : List (List String)) :
    String × List (List String) :=
  let body := trimStr body0
  if status ≠ "" then (twiml "", db)
  else
    let upper := upperStr body
    if STOP_WORDS.contains upper then
      (twiml "", (updateOptInByPhone db fromNumber "No" true).1)
    else if upper = "START" then
      (twiml "", (updateOptInByPhone db fromNumber "Yes" true).1)
    else if upper = "HELP" then (twiml "", db)
    else if upper = "PING" then (twiml "PONG ✅", db)
    else (twiml "", db)

/-! ### C7 lemmas: case-variant bodies and the opt-in write loop -/

lemma toUpper_eq (c : Char) :
    Char.toUpper c
      = if 97 ≤ c.toNat ∧ c.toNat ≤ 122 then Char.ofNat (c.toNat - 32) else c := rfl

lemma toUpper_of_space {c : Char} (h : isSpaceChar c = true) : Char.toUpper c = c := by
  rw [toUpper_eq, if_neg]
  intro hc
  have hd : c = ' ' ∨ c = '\t' ∨ c = '\n' ∨ c = '\r' := by simpa [isSpaceChar] using h
  rcases hd with rfl | rfl | rfl | rfl <;> exact absurd hc.1 (by decide)

/-- If the uppercased body is exactly `"STOP"`, the body has no whitespace. -/
lemma no_space_of_upper_STOP {s : String} (h : upperStr s = "STOP") :
    ∀ c ∈ s.data, isSpaceChar c = false := by
  intro c hc
  have hmap : s.data.map Char.toUpper = "STOP".data := congrArg String.data h
  have hmem : Char.toUpper c ∈ ("STOP".data) := by
    rw [← hmap]
    exact List.mem_map_of_mem _ hc
  have h65 : 65 ≤ (Char.toUpper c).toNat := by
    have : ∀ u ∈ ("STOP".data), 65 ≤ u.toNat := by decide
    exact this _ hmem
  by_contra hsp
  simp only [Bool.not_eq_false] at hsp
  rw [toUpper_of_space hsp] at h65
  rw [isSpaceChar_of_ge_65 h65] at hsp
  exact absurd hsp (by simp)

lemma dropWhile_eq_self_of_all {p : α → Bool} {l : List α}
    (h : ∀ a ∈ l, p a = false) : l.dropWhile p = l := by
  cases l with
  | nil => rfl
  | cons a as =>
    exact List.dropWhile_cons_of_neg (by simp [h a (List.mem_cons_self a as)])

lemma trimStr_eq_of_no_space {s : String}
    (h : ∀ c ∈ s.data, isSpaceChar c = false) : trimStr s = s := by
  apply String.ext
  show trimRightL (trimLeftL s.data) = s.data
  rw [trimLeftL, dropWhile_eq_self_of_all h, trimRightL,
      dropWhile_eq_self_of_all (fun a ha => h a (List.mem_reverse.mp ha)),
      List.reverse_reverse]

lemma modifyAt_length (f : α → α) :
    ∀ (n : Nat) (l : List α), (modifyAt f n l).length = l.length := by
  intro n l
  induction l generalizing n with
  | nil => cases n <;> rfl
  | cons a as ih =>
    cases n with
    | zero => rfl
    | succ n => simpa [modifyAt] using ih n

/-- Rows of the final grid of the all-matches opt-in loop: every row at or
after the scan start whose snapshot phone matches gets its opt-in cell set;
rows before the start keep their current contents. -/
lemma optInLoop_final_rows (vals : List (List String)) (cPhone cOpt : Nat)
    (want value : String) :
    ∀ (k r0 : Nat) (sheet : List (List String)) (changed : Bool),
      vals.length - r0 ≤ k →
      sheet.length = vals.length →
      (∀ r, r0 ≤ r → sheet.getD r [] = vals.getD r []) →
      (∀ r, r < r0 →
        (optInLoop vals cPhone cOpt want value true r0 sheet changed).1.getD r []
          = sheet.getD r [])
      ∧ (∀ r, r0 ≤ r → r < vals.length →
          normalizePhoneDigits (cellD vals r cPhone) ≠ "" →
          normalizePhoneDigits (cellD vals r cPhone) = want →
          (optInLoop vals cPhone cOpt want value true r0 sheet changed).1.getD r []
            = (vals.getD r []).set cOpt value) := by
  intro k
  induction k with
  | zero =>
    intro r0 sheet changed hk hlen habove
    rw [optInLoop, dif_neg (by omega)]
    exact ⟨fun r _ => rfl, fun r hr1 hr2 _ _ => absurd hr2 (by omega)⟩
  | succ k ih =>
    intro r0 sheet changed hk hlen habove
    by_cases hr0 : r0 < vals.length
    · rw [optInLoop, dif_pos hr0]
      simp only []
      by_cases hm : normalizePhoneDigits (cellD vals r0 cPhone) ≠ ""
          ∧ normalizePhoneDigits (cellD vals r0 cPhone) = want
      · rw [if_pos hm, if_pos trivial]
        have hlen' : (setCell sheet r0 cOpt value).length = vals.length := by
          rw [setCell, modifyAt_length, hlen]
        have habove' : ∀ r, r0 + 1 ≤ r →
            (setCell sheet r0 cOpt value).getD r [] = vals.getD r [] := by
          intro r hr
          rw [setCell, modifyAt_getD_ne _ _ _ _ _ (by omega)]
          exact habove r (by omega)
        obtain ⟨iha, ihb⟩ := ih (r0 + 1) (setCell sheet r0 cOpt value) true
          (by omega) hlen' habove'
        constructor
        · intro r hr
          rw [iha r (by omega), setCell, modifyAt_getD_ne _ _ _ _ _ (by omega)]
        · intro r hr1 hr2 hne hweq
          by_cases hrr : r = r0
          · subst hrr
            rw [iha r (by omega), setCell,
                modifyAt_getD_self _ _ r sheet (by omega), habove r (le_refl r)]
          · exact ihb r (by omega) hr2 hne hweq
      · rw [if_neg hm]
        obtain ⟨iha, ihb⟩ := ih (r0 + 1) sheet changed (by omega) hlen
          (fun r hr => habove r (by omega))
        constructor
        · intro r hr
          exact iha r (by omega)
        · intro r hr1 hr2 hne hweq
          by_cases hrr : r = r0
          · subst hrr
            exact absurd ⟨hne, hweq⟩ hm
          · exact ihb r (by omega) hr2 hne hweq
    · rw [optInLoop, dif_neg hr0]
      exact ⟨fun r _ => rfl, fun r hr1 hr2 _ _ => absurd hr2 (by omega)⟩

/-! ### C7: inbound STOP sets every matching row to No and replies empty -/

/-- C7: an inbound webhook request with no delivery-status field whose body is
`"stop"` in any letter case makes the handler write the canonical negative
`"No"` into the opt-in cell of every Student Database row whose normalized
phone digits equal the sender's, and reply with the empty TwiML envelope. -/
theorem C7_inbound_stop_optout (fromNumber body0 : String) (db : List (List String))
    (cPhone cOpt : Nat)
    (hb : upperStr body0 = "STOP")
    (hlen : 2 ≤ db.length)
    (hc1 : findCol (db.getD 0 []) "phone #" = some cPhone)
    (hc2 : findCol (db.getD 0 []) "sms opt-in" = some cOpt)
    (hwant : normalizePhoneDigits fromNumber ≠ "") :
    (doPost fromNumber body0 "" db).1
      = "<?xml version=\"1.0\" encoding=\"UTF-8\"?><Response></Response>"
    ∧ ∀ r, 1 ≤ r → r < db.length →
        normalizePhoneDigits (cellD db r cPhone) ≠ "" →
        normalizePhoneDigits (cellD db r cPhone) = normalizePhoneDigits fromNumber →
        (doPost fromNumber body0 "" db).2.getD r [] = (db.getD r []).set cOpt "No" := by
  have htrim : trimStr body0 = body0 :=
    trimStr_eq_of_no_space (no_space_of_upper_STOP hb)
  have hpost : doPost fromNumber body0 "" db
      = (twiml "", (updateOptInByPhone db fromNumber "No" true).1) := by
    unfold doPost
    rw [if_neg (by simp), htrim, hb, if_pos (by decide)]
  have hupd : (updateOptInByPhone db fromNumber "No" true).1
      = (optInLoop db cPhone cOpt (normalizePhoneDigits fromNumber) "No" true 1 db
          false).1 := by
    unfold updateOptInByPhone
    rw [if_neg (by omega), hc1, hc2]
    simp only []
    rw [if_neg hwant]
  obtain ⟨_, hrows⟩ := optInLoop_final_rows db cPhone cOpt
    (normalizePhoneDigits fromNumber) "No" db.length 1 db false (by omega) rfl
    (fun r _ => rfl)
  constructor
  · rw [hpost]
    show twiml "" = _
    decide
  · intro r hr1 hr2 hne hweq
    rw [hpost]
    show (updateOptInByPhone db fromNumber "No" true).1.getD r [] = _
    rw [hupd]
    exact hrows r hr1 hr2 hne hweq

/-- Witness for C7 at concrete inputs: body `"Stop"` from a matching sender
flips the row's opt-in cell to `"No"` and the reply is the empty envelope. -/
theorem C7_inbound_stop_optout_witness :
    (doPost "+18162379012" "Stop" ""
        [["Phone #", "SMS Opt-In"], ["(816) 237-9012", "Yes"]]).1
      = "<?xml version=\"1.0\" encoding=\"UTF-8\"?><Response></Response>"
    ∧ (doPost "+18162379012" "Stop" ""
        [["Phone #", "SMS Opt-In"], ["(816) 237-9012", "Yes"]]).2.getD 1 []
      = ["(816) 237-9012", "No"] := by
  have h := C7_inbound_stop_optout "+18162379012" "Stop"
    [["Phone #", "SMS Opt-In"], ["(816) 237-9012", "Yes"]] 0 1
    (by decide) (by decide) (by decide) (by decide) (by decide)
  refine ⟨h.1, ?_⟩
  rw [h.2 1 (by decide) (by decide) (by decide) (by decide)]
  decide

/-! ### `smsSend.js`: the template renderer `uiRenderPreview`

The four regex passes of the renderer are modelled as character-list
functions: global literal replacement (`replaceList`), the optional-segment
expansion `\{(\w+)\?\s*([^}]*)\}` (`expandOpt`), the horizontal-whitespace
collapse `[^\S\n]+` (`collapseHWS`), the space-before-punctuation removal
`[ \t]+([!?.,;:])` (`stripSpaceBeforePunct`), and the per-line trim
`^[ \t]+|[ \t]+$` after `split('\n')` (`splitTrimJoin`). -/

/-- Global leftmost, non-overlapping literal replacement — the semantics of
`String.replace` with a literal `/…/g` pattern. -/
def replaceList (pat rep : List Char) : List Char → List Char
  | [] => []
  | c :: rest =>
    if h : pat ≠ [] ∧ pat.isPrefixOf (c :: rest) then
      rep ++ replaceList pat rep ((c :: rest).drop pat.length)
    else c :: replaceList pat rep rest
termination_by l => l.length
decreasing_by
  · simp only [List.length_drop, List.length_cons]
    have := List.length_pos.mpr h.1
    omega
  · simp

def jsReplaceAll (s pat rep : String) : String :=
  ⟨replaceList pat.data rep.data s.data⟩

/-- `[^\S\n]`: whitespace other than newline (space, tab, carriage return). -/
def hwsChar (c : Char) : Bool := isSpaceChar c ∧ c ≠ '\n'

/-- The collapse pass `replace(/[^\S\n]+/g, ' ')`. -/
def collapseHWS : List Char → List Char
  | [] => []
  | c :: rest =>
    if hwsChar c then ' ' :: collapseHWS (rest.dropWhile hwsChar)
    else c :: collapseHWS rest
termination_by l => l.length
decreasing_by
  · have := (List.dropWhile_suffix (l := rest) hwsChar).length_le
    simp only [List.length_cons]
    omega
  · simp

def isPunct (c : Char) : Bool :=
  c = '!' ∨ c = '?' ∨ c = '.' ∨ c = ',' ∨ c = ';' ∨ c = ':'

def htab (c : Char) : Bool := c = ' ' ∨ c = '\t'

/-- The pass `replace(/[ \t]+([!?.,;:])/g, '$1')`: a maximal space/tab run
immediately followed by sentence punctuation is deleted. -/
def stripSpaceBeforePunct : List Char → List Char
  | [] => []
  | c :: rest =>
    if htab c then
      match h : rest.dropWhile htab with
      | p :: tl =>
        if isPunct p then p :: stripSpaceBeforePunct tl
        else (c :: rest.takeWhile htab) ++ p :: stripSpaceBeforePunct tl
      | [] => c :: rest.takeWhile htab
    else c :: stripSpaceBeforePunct rest
termination_by l => l.length
decreasing_by
  all_goals
    first
    | (have hle := (List.dropWhile_suffix (l := rest) htab).length_le
       rw [h] at hle
       simp only [List.length_cons] at hle ⊢
       omega)
    | simp

/-- `split('\n')`, per-line `replace(/^[ \t]+|[ \t]+$/g, '')`, `join('\n')`. -/
def lineTrim (line : List Char) : List Char :=
  ((line.dropWhile htab).reverse.dropWhile htab).reverse

def splitTrimJoin (l : List Char) : List Char :=
  List.intercalate ['\n'] ((l.splitOn '\n').map lineTrim)

/-- Steps 4a–4c of the final tidy: collapse, punctuation spacing, line trim —
everything before the final whole-string `trim()`. -/
def cleanupInner (s : String) : String :=
  ⟨splitTrimJoin (stripSpaceBeforePunct (collapseHWS s.data))⟩

/-- Step 4 of `uiRenderPreview` including the final `trim()`. -/
def renderCleanup (s : String) : String := trimStr (cleanupInner s)

/-- The render context built from the selected event plus the footer. -/
structure RenderCtx where
  title : String
  date : String
  location : String
  footer : String
deriving DecidableEq, Repr

def smsFooter : String := " Reply STOP to opt out. HELP for help."

/-- `ctx[key] || ''` for the optional-segment callback. -/
def ctxGet (c : RenderCtx) (key : List Char) : String :=
  if key = "title".data then c.title
  else if key = "date".data then c.date
  else if key = "location".data then c.location
  else if key = "footer".data then c.footer
  else ""

/-- `\w`: `[A-Za-z0-9_]`. -/
def isWordChar (c : Char) : Bool := c.isAlphanum ∨ c = '_'

/-- The optional-segment pass `replace(/\{(\w+)\?\s*([^}]*)\}/g, cb)`: the
segment text is kept when the context value is non-empty after trimming and
deleted otherwise.  An unmatched `{` is passed through and scanning resumes at
the next character, as a regex engine does. -/
def expandOpt (ctx : RenderCtx) : List Char → List Char
  | [] => []
  | c :: rest =>
    if c = '{' then
      let key := rest.takeWhile isWordChar
      match h : rest.dropWhile isWordChar with
      | '?' :: r2 =>
        if key ≠ [] then
          let r3 := r2.dropWhile isSpaceChar
          let seg := r3.takeWhile (fun x => x ≠ '}')
          match h4 : r3.dropWhile (fun x => x ≠ '}') with
          | '}' :: r5 =>
            (if trimStr (ctxGet ctx key) ≠ "" then seg else []) ++ expandOpt ctx r5
          | _ => c :: expandOpt ctx rest
        else c :: expandOpt ctx rest
      | _ => c :: expandOpt ctx rest
    else c :: expandOpt ctx rest
termination_by l => l.length
decreasing_by
  all_goals
    first
    | (have h1 := (List.dropWhile_suffix (l := rest) isWordChar).length_le
       rw [h] at h1
       have h2 := (List.dropWhile_suffix
         (l := List.dropWhile isSpaceChar r2) (fun x => x ≠ '}')).length_le
       rw [h4] at h2
       have h3 := (List.dropWhile_suffix (l := r2) isSpaceChar).length_le
       simp only [List.length_cons] at h1 h2 ⊢
       omega)
    | simp

/-- Steps 0–3 of `uiRenderPreview`: normalize line breaks, trim, protect the
simple placeholders, expand optional segments, restore the placeholders. -/
def renderSubstitute (body : String) (ctx : RenderCtx) : String :=
  let out := trimStr (jsReplaceAll body "\r\n" "\n")
  let out := jsReplaceAll out "{title}" "<<TITLE>>"
  let out := jsReplaceAll out "{date}" "<<DATE>>"
  let out := jsReplaceAll out "{location}" "<<LOCATION>>"
  let out := jsReplaceAll out "{footer}" "<<FOOTER>>"
  let out : String := ⟨expandOpt ctx out.data⟩
  let out := jsReplaceAll out "<<TITLE>>" ctx.title
  let out := jsReplaceAll out "<<DATE>>" ctx.date
  let out := jsReplaceAll out "<<LOCATION>>" ctx.location
  let out := jsReplaceAll out "<<FOOTER>>" ctx.footer
  out

/-- `uiRenderPreview(body, eventId)` with the event fields already resolved
into the context (the source trims them and adds the footer). -/
def uiRenderPreview (body : String) (ctx : RenderCtx) : String :=
  renderCleanup (renderSubstitute body ctx)

/-! Newline-count bookkeeping for the cleanup passes. -/

theorem count_nl_takeWhile (p : Char → Bool) (hp : p '\n' = false) (l : List Char) :
    (l.takeWhile p).count '\n' = 0 := by
  rw [List.count_eq_zero]
  intro hmem
  have h := List.mem_takeWhile_imp hmem
  rw [hp] at h
  exact Bool.noConfusion h

theorem count_nl_dropWhile (p : Char → Bool) (hp : p '\n' = false) (l : List Char) :
    (l.dropWhile p).count '\n' = l.count '\n' := by
  conv_rhs => rw [← List.takeWhile_append_dropWhile p l]
  rw [List.count_append, count_nl_takeWhile p hp]
  omega

theorem count_nl_collapseHWS (l : List Char) :
    (collapseHWS l).count '\n' = l.count '\n' := by
  induction l using collapseHWS.induct with
  | case1 => rw [collapseHWS]
  | case2 c rest h ih =>
    have hc : ('\n' : Char) ≠ c := by
      intro he
      rw [← he] at h
      exact Bool.noConfusion h
    rw [collapseHWS, if_pos h, List.count_cons_of_ne (by decide), ih,
        count_nl_dropWhile hwsChar (by decide), List.count_cons_of_ne hc]
  | case3 c rest h ih =>
    rw [collapseHWS, if_neg h, List.count_cons, List.count_cons, ih]

theorem count_nl_stripSpaceBeforePunct (l : List Char) :
    (stripSpaceBeforePunct l).count '\n' = l.count '\n' := by
  induction l using stripSpaceBeforePunct.induct with
  | case1 => rw [stripSpaceBeforePunct]
  | case2 c rest hc p tl h hp ih =>
    have hrest : rest = rest.takeWhile htab ++ (p :: tl) := by
      rw [← h, List.takeWhile_append_dropWhile]
    rw [stripSpaceBeforePunct, if_pos hc]
    split
    next p' tl' heq =>
      rw [h] at heq
      injection heq with h1 h2
      subst h1; subst h2
      rw [if_pos hp]
      have hpn : ('\n' : Char) ≠ p := by
        intro he
        rw [← he] at hp
        exact absurd hp (by decide)
      have hcn : ('\n' : Char) ≠ c := by
        intro he
        rw [← he] at hc
        exact absurd hc (by decide)
      conv_rhs => rw [hrest]
      rw [List.count_cons_of_ne hpn, ih, List.count_cons_of_ne hcn, List.count_append,
          count_nl_takeWhile htab (by decide), List.count_cons_of_ne hpn]
      omega
    next heq =>
      rw [h] at heq
      exact List.noConfusion heq
  | case3 c rest hc p tl h hp ih =>
    have hrest : rest = rest.takeWhile htab ++ (p :: tl) := by
      rw [← h, List.takeWhile_append_dropWhile]
    rw [stripSpaceBeforePunct, if_pos hc]
    split
    next p' tl' heq =>
      rw [h] at heq
      injection heq with h1 h2
      subst h1; subst h2
      rw [if_neg hp]
      conv_rhs => rw [hrest]
      simp only [List.count_append, List.count_cons, List.cons_append, ih]
    next heq =>
      rw [h] at heq
      exact List.noConfusion heq
  | case4 c rest hc h =>
    have hrest : rest.takeWhile htab = rest := by
      conv_rhs => rw [← List.takeWhile_append_dropWhile htab rest]
      rw [h, List.append_nil]
    rw [stripSpaceBeforePunct, if_pos hc]
    split
    next p' tl' heq =>
      rw [h] at heq
      exact List.noConfusion heq
    next heq =>
      rw [hrest]
  | case5 c rest hc ih =>
    rw [stripSpaceBeforePunct, if_neg hc, List.count_cons, List.count_cons, ih]

theorem count_nl_lineTrim (x : List Char) : (lineTrim x).count '\n' = x.count '\n' := by
  rw [lineTrim, List.count_reverse, count_nl_dropWhile htab (by decide),
      List.count_reverse, count_nl_dropWhile htab (by decide)]

theorem count_nl_intercalate_cons_cons (a b : List Char) (t : List (List Char)) :
    (List.intercalate ['\n'] (a :: b :: t)).count '\n'
      = a.count '\n' + (1 + (List.intercalate ['\n'] (b :: t)).count '\n') := by
  rw [List.intercalate, List.intercalate, List.intersperse_cons_cons,
      List.flatten_cons, List.flatten_cons, List.count_append, List.count_append]
  simp [List.count_cons]

theorem count_nl_intercalate_map (f : List Char → List Char)
    (hf : ∀ p, (f p).count '\n' = p.count '\n') :
    ∀ ps : List (List Char),
      (List.intercalate ['\n'] (ps.map f)).count '\n'
        = (List.intercalate ['\n'] ps).count '\n'
  | [] => rfl
  | [p] => by simp [List.intercalate, hf]
  | p :: q :: t => by
    rw [List.map_cons, List.map_cons, count_nl_intercalate_cons_cons,
        count_nl_intercalate_cons_cons, hf, ← List.map_cons,
        count_nl_intercalate_map f hf (q :: t)]

theorem count_nl_splitTrimJoin (l : List Char) :
    (splitTrimJoin l).count '\n' = l.count '\n' := by
  rw [splitTrimJoin, count_nl_intercalate_map lineTrim count_nl_lineTrim,
      List.intercalate_splitOn]

theorem nlCount_cleanupInner (s : String) : nlCount (cleanupInner s) = nlCount s := by
  show (splitTrimJoin (stripSpaceBeforePunct (collapseHWS s.data))).count '\n'
      = s.data.count '\n'
  rw [count_nl_splitTrimJoin, count_nl_stripSpaceBeforePunct, count_nl_collapseHWS]

theorem nlCount_trimStr_le (s : String) : nlCount (trimStr s) ≤ nlCount s := by
  show (trimRightL (trimLeftL s.data)).count '\n' ≤ s.data.count '\n'
  calc (trimRightL (trimLeftL s.data)).count '\n'
      ≤ (trimLeftL s.data).count '\n' := by
        rw [trimRightL, List.count_reverse]
        calc ((trimLeftL s.data).reverse.dropWhile isSpaceChar).count '\n'
            ≤ (trimLeftL s.data).reverse.count '\n' :=
              (List.dropWhile_suffix isSpaceChar).sublist.count_le '\n'
          _ = (trimLeftL s.data).count '\n' := List.count_reverse _ _
    _ ≤ s.data.count '\n' := (List.dropWhile_suffix isSpaceChar).sublist.count_le '\n'

/-- C8 counterexample: for the template consisting of a `\x7btitle\x7d`
placeholder, a newline and a word, with an empty event title, the substituted
text has one newline but the rendered output has none — the final `trim()` of
the cleanup pass removes a leading line break, so the rendered output does not
contain the same number of newline characters as the substituted text. -/
theorem C8_trim_drops_newline_counterexample :
    nlCount (renderSubstitute "\x7btitle\x7d\nHi" ⟨"", "", "", smsFooter⟩) = 1 ∧
    nlCount (uiRenderPreview "\x7btitle\x7d\nHi" ⟨"", "", "", smsFooter⟩) = 0 := by
  constructor
  · simp [renderSubstitute, jsReplaceAll, replaceList, trimStr, trimLeftL, trimRightL,
      isSpaceChar, expandOpt, nlCount, List.isPrefixOf, List.dropWhile, isWordChar, ctxGet,
      smsFooter]
  · simp [uiRenderPreview, renderCleanup, renderSubstitute, jsReplaceAll, replaceList,
      trimStr, trimLeftL, trimRightL, isSpaceChar, expandOpt, nlCount, List.isPrefixOf,
      List.dropWhile, isWordChar, ctxGet, smsFooter, cleanupInner, splitTrimJoin,
      collapseHWS, stripSpaceBeforePunct, hwsChar, htab, lineTrim, List.splitOn,
      List.intercalate]

/-- C8 (amended): the three inner cleanup steps of `uiRenderPreview` — collapse
of horizontal whitespace runs, removal of space before sentence punctuation,
and per-line trimming — preserve the newline count of the substituted text
exactly; the rendered output is the whole-string `trim()` of that cleaned text,
so its newline count can only drop below the substituted text's count when the
trim removes leading or trailing line breaks, and never exceeds it. -/
theorem C8_cleanup_newlines (body : String) (ctx : RenderCtx) :
    uiRenderPreview body ctx = trimStr (cleanupInner (renderSubstitute body ctx))
    ∧ nlCount (cleanupInner (renderSubstitute body ctx))
        = nlCount (renderSubstitute body ctx)
    ∧ nlCount (uiRenderPreview body ctx) ≤ nlCount (renderSubstitute body ctx) := by
  refine ⟨rfl, nlCount_cleanupInner _, ?_⟩
  calc nlCount (uiRenderPreview body ctx)
      ≤ nlCount (cleanupInner (renderSubstitute body ctx)) :=
        nlCount_trimStr_le _
    _ = nlCount (renderSubstitute body ctx) := nlCount_cleanupInner _

end TwilioSheets
